import Mathlib

set_option maxRecDepth 100000

/-!
Verification development for the mcp-recorder core: a shallow embedding of
the cassette data model (`_types.py`), persistence (`_utils.py`), the
matcher family (`matcher.py`), the replay server POST handler
(`replayer.py`), the recording proxy dispatch (`proxy.py`) and the
verifier normalization (`verifier.py`), together with theorems settling
the specification claims about them.

JSON values are modelled by a mutual inductive (`Json` / `JList` /
`JFields`) so that every function on them is structurally recursive and
kernel-evaluable.  JSON numbers are modelled as integers; none of the
verified properties depend on non-integral numerics.  An association
list models a Python dict (Python dicts preserve insertion order and
cannot hold duplicate keys).
-/

mutual

inductive Json where
  | null : Json
  | bool (b : Bool) : Json
  | num (n : Int) : Json
  | str (s : String) : Json
  | arr (elems : JList) : Json
  | obj (fields : JFields) : Json

inductive JList where
  | nil : JList
  | cons (hd : Json) (tl : JList) : JList

inductive JFields where
  | nil : JFields
  | cons (k : String) (v : Json) (tl : JFields) : JFields

end

/- Equality test on JSON trees (structural; Python `==` on values produced
by `json.loads` agrees with it on the fragments the code compares, which
are strings and scalars). -/
mutual

def Json.beq : Json → Json → Bool
  | .null, .null => true
  | .bool a, .bool b => a == b
  | .num a, .num b => a == b
  | .str a, .str b => a == b
  | .arr a, .arr b => JList.beq a b
  | .obj a, .obj b => JFields.beq a b
  | _, _ => false

def JList.beq : JList → JList → Bool
  | .nil, .nil => true
  | .cons a as, .cons b bs => Json.beq a b && JList.beq as bs
  | _, _ => false

def JFields.beq : JFields → JFields → Bool
  | .nil, .nil => true
  | .cons k v tl, .cons k2 v2 tl2 => k == k2 && Json.beq v v2 && JFields.beq tl tl2
  | _, _ => false

end

instance : BEq Json := ⟨Json.beq⟩

/-- Membership of a key in a dict (Python `k in d`). -/
def hasField : JFields → String → Bool
  | .nil, _ => false
  | .cons k _ tl, key => if k = key then true else hasField tl key

/-- Lookup in a dict, distinguishing a missing key from a stored value. -/
def lookupField : JFields → String → Option Json
  | .nil, _ => none
  | .cons k v tl, key => if k = key then some v else lookupField tl key

/-- Python `d.get(key, default)`: the stored value if the key is present
(even a stored `null`, i.e. Python `None`), otherwise the default. -/
def pyGetD (fs : JFields) (key : String) (default : Json) : Json :=
  (lookupField fs key).getD default

/-- Python `d.get(key)`: `Json.null` plays Python `None`, so a stored null
and a missing key give the same result, as in Python. -/
def pyGet (fs : JFields) (key : String) : Json :=
  pyGetD fs key .null

/-- Python-side optional (`None` vs a value): `d.get(key)` mapped into an
`Option`, conflating a stored JSON null with a missing key exactly as
Python does. -/
def pyOptGet (fs : JFields) (key : String) : Option Json :=
  match lookupField fs key with
  | some .null => none
  | none => none
  | some v => some v

/-- Replacement of the value stored under a key, in place (Python
`dict` assignment for a key that is already present). -/
def setFieldValue : JFields → String → Json → JFields
  | .nil, _, _ => .nil
  | .cons k v tl, key, newV =>
      if k = key then .cons k newV (setFieldValue tl key newV)
      else .cons k v (setFieldValue tl key newV)

/-- Number of entries of a dict. -/
def JFields.length : JFields → Nat
  | .nil => 0
  | .cons _ _ tl => 1 + tl.length

/-- Number of elements of a JSON array. -/
def JList.length : JList → Nat
  | .nil => 0
  | .cons _ tl => 1 + tl.length

/-- Element of a JSON array at an index. -/
def JList.get? : JList → Nat → Option Json
  | .nil, _ => none
  | .cons x _, 0 => some x
  | .cons _ tl, n + 1 => JList.get? tl n

/-! ### Python string rendering

`str()` / `repr()` of values produced by `json.loads`, used by the code
in f-strings.  On strings, `str` is the identity; every claim only ever
formats strings, so the `repr` fallback below matters to no theorem, but
it is kept faithful to CPython for scalars and containers (printable
characters are not escaped; `\x`-style escapes for the quote, the
backslash and control characters). -/

/-- Lower-case hex digits of a number, fixed width. -/
def toHexFixed : Nat → Nat → String
  | 0, _ => ""
  | w + 1, v =>
      let d := v % 16
      let c := if d < 10 then Char.ofNat (48 + d) else Char.ofNat (87 + d)
      toHexFixed w (v / 16) ++ String.singleton c

/-- Escape of one character inside a Python `repr` string literal with
quote character code `q`. -/
def pyReprChar (q : Nat) (c : Char) : String :=
  let n := c.toNat
  if n = 92 then "\\\\"
  else if n = q then "\\" ++ String.singleton (Char.ofNat q)
  else if n = 10 then "\\n"
  else if n = 13 then "\\r"
  else if n = 9 then "\\t"
  else if n < 32 then "\\x" ++ toHexFixed 2 n
  else String.singleton c

/-- Python `repr` of a string: single quotes, or double quotes when the
string contains a single quote but no double quote. -/
def pyReprStr (s : String) : String :=
  let hasSingle := s.data.any (fun c => c.toNat = 39)
  let hasDouble := s.data.any (fun c => c.toNat = 34)
  let q : Nat := if hasSingle && !hasDouble then 34 else 39
  let quote := String.singleton (Char.ofNat q)
  quote ++ String.join (s.data.map (pyReprChar q)) ++ quote

mutual

def pyRepr : Json → String
  | .null => "None"
  | .bool true => "True"
  | .bool false => "False"
  | .num n => toString n
  | .str s => pyReprStr s
  | .arr xs => "[" ++ pyReprList xs ++ "]"
  | .obj fs => "\x7b" ++ pyReprFields fs ++ "\x7d"

def pyReprList : JList → String
  | .nil => ""
  | .cons x .nil => pyRepr x
  | .cons x tl => pyRepr x ++ ", " ++ pyReprList tl

def pyReprFields : JFields → String
  | .nil => ""
  | .cons k v .nil => pyReprStr k ++ ": " ++ pyRepr v
  | .cons k v tl => pyReprStr k ++ ": " ++ pyRepr v ++ ", " ++ pyReprFields tl

end

/-- Python `str()` of a JSON value (identity on strings, `repr`-based
rendering otherwise), as used when a value is interpolated into an
f-string. -/
def pyStr : Json → String
  | .str s => s
  | j => pyRepr j

/-! ### `json.dumps`

Faithful model of `json.dumps(obj)` with the default separators
`", "` and `": "`, with and without `ensure_ascii`.  With
`ensure_ascii=True` every character outside `0x20..0x7e` is written as a
`\uXXXX` escape (surrogate pairs above `0xFFFF`); without it only the
quote, the backslash and control characters below `0x20` are escaped.
Common control characters use the two-character escapes of CPython's
`ESCAPE_DCT`. -/

def jsonEscapeChar (ensureAscii : Bool) (c : Char) : String :=
  let n := c.toNat
  if n = 34 then "\\\""
  else if n = 92 then "\\\\"
  else if n = 8 then "\\b"
  else if n = 9 then "\\t"
  else if n = 10 then "\\n"
  else if n = 12 then "\\f"
  else if n = 13 then "\\r"
  else if n < 32 then "\\u" ++ toHexFixed 4 n
  else if !ensureAscii then String.singleton c
  else if n < 127 then String.singleton c
  else if n < 65536 then "\\u" ++ toHexFixed 4 n
  else
    let m := n - 65536
    "\\u" ++ toHexFixed 4 (55296 + m / 1024) ++ "\\u" ++ toHexFixed 4 (56320 + m % 1024)

def jsonQuote (ensureAscii : Bool) (s : String) : String :=
  "\"" ++ String.join (s.data.map (jsonEscapeChar ensureAscii)) ++ "\""

mutual

def dumpsJ (ea : Bool) : Json → String
  | .null => "null"
  | .bool true => "true"
  | .bool false => "false"
  | .num n => toString n
  | .str s => jsonQuote ea s
  | .arr xs => "[" ++ dumpsL ea xs ++ "]"
  | .obj fs => "\x7b" ++ dumpsF ea fs ++ "\x7d"

def dumpsL (ea : Bool) : JList → String
  | .nil => ""
  | .cons x .nil => dumpsJ ea x
  | .cons x tl => dumpsJ ea x ++ ", " ++ dumpsL ea tl

def dumpsF (ea : Bool) : JFields → String
  | .nil => ""
  | .cons k v .nil => jsonQuote ea k ++ ": " ++ dumpsJ ea v
  | .cons k v tl => jsonQuote ea k ++ ": " ++ dumpsJ ea v ++ ", " ++ dumpsF ea tl

end

/-- Lexicographic code-point comparison of character lists, the order
CPython `sorted` uses on strings. -/
def charListLt : List Char → List Char → Bool
  | [], [] => false
  | [], _ :: _ => true
  | _ :: _, [] => false
  | a :: as, b :: bs =>
      if a.toNat < b.toNat then true
      else if b.toNat < a.toNat then false
      else charListLt as bs

/-- String comparison by code points (CPython `<` on `str`). -/
def strLt (a b : String) : Bool := charListLt a.data b.data

/-- Stable insertion of a field into a key-sorted field list. -/
def insertSorted (k : String) (v : Json) : JFields → JFields
  | .nil => .cons k v .nil
  | .cons k2 v2 tl =>
      if strLt k k2 then .cons k v (.cons k2 v2 tl)
      else .cons k2 v2 (insertSorted k v tl)

def sortFields : JFields → JFields
  | .nil => .nil
  | .cons k v tl => insertSorted k v (sortFields tl)

/- Recursive key-sorting of every object in a JSON tree, the effect of
`sort_keys=True` in `json.dumps`. -/
mutual

def canonJ : Json → Json
  | .arr xs => .arr (canonL xs)
  | .obj fs => .obj (sortFields (canonF fs))
  | j => j

def canonL : JList → JList
  | .nil => .nil
  | .cons x tl => .cons (canonJ x) (canonL tl)

def canonF : JFields → JFields
  | .nil => .nil
  | .cons k v tl => .cons k (canonJ v) (canonF tl)

end

/-- Model of `json.dumps(obj, sort_keys=True, ensure_ascii=True, default=str)`
(the canonical encoding hashed by the matcher; `default=str` is
unreachable for JSON-native values). -/
def canonicalDumps (j : Json) : String :=
  dumpsJ true (canonJ j)

/-! ### SHA-256

Model of `hashlib.sha256(...).hexdigest()` over byte lists, with 32-bit
words as `Nat` reduced modulo `2 ^ 32`. -/

def w32 : Nat := 4294967296

def add32 (a b : Nat) : Nat := (a + b) % w32

/-- Right rotation of a 32-bit word. -/
def rotr (n x : Nat) : Nat := x / 2 ^ n + x % 2 ^ n * 2 ^ (32 - n)

/-- Right shift of a 32-bit word. -/
def shr (n x : Nat) : Nat := x / 2 ^ n

/-- Bitwise complement of a 32-bit word. -/
def not32 (x : Nat) : Nat := 4294967295 - x

def shaCh (x y z : Nat) : Nat := (x &&& y) ^^^ (not32 x &&& z)

def shaMaj (x y z : Nat) : Nat := (x &&& y) ^^^ (x &&& z) ^^^ (y &&& z)

def bigSigma0 (x : Nat) : Nat := rotr 2 x ^^^ rotr 13 x ^^^ rotr 22 x

def bigSigma1 (x : Nat) : Nat := rotr 6 x ^^^ rotr 11 x ^^^ rotr 25 x

def smallSigma0 (x : Nat) : Nat := rotr 7 x ^^^ rotr 18 x ^^^ shr 3 x

def smallSigma1 (x : Nat) : Nat := rotr 17 x ^^^ rotr 19 x ^^^ shr 10 x

def shaK : List Nat :=
  [1116352408, 1899447441, 3049323471, 3921009573, 961987163,
   1508970993, 2453635748, 2870763221, 3624381080, 310598401,
   607225278, 1426881987, 1925078388, 2162078206, 2614888103,
   3248222580, 3835390401, 4022224774, 264347078, 604807628,
   770255983, 1249150122, 1555081692, 1996064986, 2554220882,
   2821834349, 2952996808, 3210313671, 3336571891, 3584528711,
   113926993, 338241895, 666307205, 773529912, 1294757372,
   1396182291, 1695183700, 1986661051, 2177026350, 2456956037,
   2730485921, 2820302411, 3259730800, 3345764771, 3516065817,
   3600352804, 4094571909, 275423344, 430227734, 506948616,
   659060556, 883997877, 958139571, 1322822218, 1537002063,
   1747873779, 1955562222, 2024104815, 2227730452, 2361852424,
   2428436474, 2756734187, 3204031479, 3329325298]

def shaH0 : List Nat :=
  [1779033703, 3144134277, 1013904242, 2773480762,
   1359893119, 2600822924, 528734635, 1541459225]

/-- Big-endian byte decomposition of a number, fixed width. -/
def beBytes : Nat → Nat → List Nat
  | 0, _ => []
  | n + 1, v => v / 2 ^ (8 * n) % 256 :: beBytes n v

/-- SHA-256 padding: `0x80`, zeros to 56 mod 64, 8-byte big-endian bit length. -/
def shaPad (msg : List Nat) : List Nat :=
  let L := msg.length
  let z := (119 - L % 64) % 64
  msg ++ 128 :: List.replicate z 0 ++ beBytes 8 (L * 8)

/-- Split into 64-byte blocks (the fuel argument bounds the recursion and
is instantiated with the list length). -/
def chunk64F : Nat → List Nat → List (List Nat)
  | 0, _ => []
  | _, [] => []
  | fuel + 1, l => l.take 64 :: chunk64F fuel (l.drop 64)

def chunk64 (l : List Nat) : List (List Nat) := chunk64F l.length l

/-- Big-endian 32-bit words of a byte list. -/
def toWords : List Nat → List Nat
  | b0 :: b1 :: b2 :: b3 :: rest =>
      (((b0 * 256 + b1) * 256 + b2) * 256 + b3) :: toWords rest
  | _ => []

/-- Message-schedule extension, appending one word per fuel step. -/
def shaExtend : Nat → List Nat → List Nat
  | 0, w => w
  | fuel + 1, w =>
      let t := w.length
      let s0 := smallSigma0 (w.getD (t - 15) 0)
      let s1 := smallSigma1 (w.getD (t - 2) 0)
      shaExtend fuel (w ++ [(((w.getD (t - 16) 0 + s0) % w32 + w.getD (t - 7) 0) % w32 + s1) % w32])

structure ShaState where
  a : Nat
  b : Nat
  c : Nat
  d : Nat
  e : Nat
  f : Nat
  g : Nat
  h : Nat

def shaRound (st : ShaState) (kw : Nat × Nat) : ShaState :=
  let t1 := ((((st.h + bigSigma1 st.e) % w32 + shaCh st.e st.f st.g) % w32 + kw.1) % w32 + kw.2) % w32
  let t2 := (bigSigma0 st.a + shaMaj st.a st.b st.c) % w32
  { a := add32 t1 t2, b := st.a, c := st.b, d := st.c,
    e := add32 st.d t1, f := st.e, g := st.f, h := st.g }

def shaCompress (hv : List Nat) (block : List Nat) : List Nat :=
  let w := shaExtend 48 (toWords block)
  let init : ShaState :=
    { a := hv.getD 0 0, b := hv.getD 1 0, c := hv.getD 2 0, d := hv.getD 3 0,
      e := hv.getD 4 0, f := hv.getD 5 0, g := hv.getD 6 0, h := hv.getD 7 0 }
  let fin := (List.zip shaK w).foldl shaRound init
  [add32 (hv.getD 0 0) fin.a, add32 (hv.getD 1 0) fin.b,
   add32 (hv.getD 2 0) fin.c, add32 (hv.getD 3 0) fin.d,
   add32 (hv.getD 4 0) fin.e, add32 (hv.getD 5 0) fin.f,
   add32 (hv.getD 6 0) fin.g, add32 (hv.getD 7 0) fin.h]

/-- Hex digest of the SHA-256 of a byte list. -/
def sha256hex (msg : List Nat) : String :=
  let hv := (chunk64 (shaPad msg)).foldl shaCompress shaH0
  String.join (hv.map (toHexFixed 8))

/-- UTF-8 bytes of an ASCII string (every string hashed by the matcher is
the output of `ensure_ascii` serialization, so code points are bytes). -/
def asciiBytes (s : String) : List Nat := s.data.map Char.toNat

/-- Sanity: SHA-256 of the empty message (FIPS 180-2 test vector). -/
theorem sha256hex_empty :
    sha256hex [] = "e3b0c44298fc1c149afbf4c8996fb92427ae41e4649b934ca495991b7852b855" := by
  rfl

/-- Sanity: SHA-256 of the three bytes of the string abc (FIPS 180-2 test
vector). -/
theorem sha256hex_abc :
    sha256hex [97, 98, 99] = "ba7816bf8f01cfea414140de5dae2223b00361a396177a9cb410ff61f20015ad" := by
  rfl

/-! ### Matching engine (`matcher.py`) -/

/-- Model of `normalize_params` on a params dict: strip the volatile
top-level `_meta` key before matching. -/
def normalizeParamsFields : JFields → JFields
  | .nil => .nil
  | .cons k v tl =>
      if k = "_meta" then normalizeParamsFields tl
      else .cons k v (normalizeParamsFields tl)

/-- Model of `normalize_params(params)` (`dict | None` in, `dict | None` out). -/
def normalize_params : Option JFields → Option JFields
  | none => none
  | some fs => some (normalizeParamsFields fs)

/-- Model of `stable_hash`: first 16 hex characters of the SHA-256 of the
canonical JSON encoding. -/
def stable_hash (j : Json) : String :=
  (sha256hex (asciiBytes (canonicalDumps j))).take 16

/-- Normalization applied to the params value before hashing
(`normalize_params(params) if isinstance(params, dict) else params`). -/
def normalizeIfDict : Json → Json
  | .obj fs => .obj (normalizeParamsFields fs)
  | p => p

/-- Model of `match_key_for(request)`: `method::stable_hash(normalized_params)`,
normalizing only when the params value is a dict. -/
def match_key_for (request : JFields) : String :=
  let method := pyGetD request "method" (.str "")
  let params := pyGet request "params"
  pyStr method ++ "::" ++ stable_hash (normalizeIfDict params)

/-- Sanity: the canonical encoding matches CPython
(`json.dumps({'method':'tools/call','params':None}, sort_keys=True,
ensure_ascii=True)`). -/
theorem canonicalDumps_sample :
    canonicalDumps (.obj (.cons "params" .null (.cons "method" (.str "tools/call") .nil)))
      = "\x7b\"method\": \"tools/call\", \"params\": null\x7d" := by
  rfl

/-- Sanity: `stable_hash(None)` agrees with CPython (`74234e98afe7498f`). -/
theorem stable_hash_null : stable_hash .null = "74234e98afe7498f" := by
  rfl

/-- Sanity: the match key of a `ping` request with no params agrees with
CPython. -/
theorem match_key_for_ping :
    match_key_for (.cons "method" (.str "ping") .nil) = "ping::74234e98afe7498f" := by
  rfl

/-- Classification tags of interactions (`InteractionType`). -/
inductive InteractionType where
  | jsonrpc_request : InteractionType
  | notification : InteractionType
  | lifecycle : InteractionType
deriving DecidableEq

/-- Model of `CassetteInteraction` with the pydantic field types
(`request` and `response` are JSON dicts or `None`). -/
structure Interaction where
  type : InteractionType
  request : Option JFields := none
  response : Option JFields := none
  response_is_sse : Bool := false
  response_status : Int := 200
  latency_ms : Int := 0
  http_method : Option String := none
  http_path : Option String := none

/-- Count of `jsonrpc_request` interactions (the matcher's `_total`). -/
def countRequests (l : List Interaction) : Nat :=
  (l.filter (fun i => i.type = InteractionType.jsonrpc_request)).length

/-- Index bucket append with `setdefault` semantics: push onto the
existing FIFO bucket for the key, creating the bucket at the end of the
dict when absent. -/
def bucketAppend (idx : List (String × List Interaction)) (key : String) (i : Interaction) :
    List (String × List Interaction) :=
  match idx with
  | [] => [(key, [i])]
  | (k, b) :: rest =>
      if k = key then (k, b ++ [i]) :: rest
      else (k, b) :: bucketAppend rest key i

def lookupBucket (idx : List (String × List Interaction)) (key : String) :
    Option (List Interaction) :=
  match idx with
  | [] => none
  | (k, b) :: rest => if k = key then some b else lookupBucket rest key

/-- Replacement of the bucket stored under a key (the in-place `popleft`
of a deque that stays in the dict). -/
def setBucket (idx : List (String × List Interaction)) (key : String)
    (b : List Interaction) : List (String × List Interaction) :=
  match idx with
  | [] => []
  | (k, old) :: rest =>
      if k = key then (k, b) :: rest
      else (k, old) :: setBucket rest key b

/-- Strategy-specific storage of the three matchers. -/
inductive MatcherImpl where
  | methodParams (index : List (String × List Interaction)) : MatcherImpl
  | sequential (queue : List Interaction) : MatcherImpl
  | strict (index : List (String × List Interaction)) : MatcherImpl

/-- Shared matcher state (`Matcher.__init__` counters) plus the
strategy-specific storage. -/
structure MatcherS where
  impl : MatcherImpl
  total : Nat
  matchedCount : Nat
  unmatched : List JFields

/-- Key used by `StrictMatcher`: full params, no normalization. -/
def strictKeyFor (request : JFields) : String :=
  let method := pyGetD request "method" (.str "")
  let params := pyGet request "params"
  pyStr method ++ "::" ++ stable_hash params

/-- Index construction shared by `MethodParamsMatcher.__init__` and
`StrictMatcher.__init__`: fold the interactions, skipping entries that
are not `jsonrpc_request` or have no request body. -/
def buildIndex (keyFn : JFields → String) (interactions : List Interaction) :
    List (String × List Interaction) :=
  interactions.foldl
    (fun idx i =>
      match i.type, i.request with
      | .jsonrpc_request, some r => bucketAppend idx (keyFn r) i
      | _, _ => idx)
    []

/-- Model of `create_matcher("method_params", interactions)`. -/
def initMethodParams (interactions : List Interaction) : MatcherS :=
  { impl := .methodParams (buildIndex match_key_for interactions),
    total := countRequests interactions, matchedCount := 0, unmatched := [] }

/-- Model of `create_matcher("sequential", interactions)`. -/
def initSequential (interactions : List Interaction) : MatcherS :=
  { impl := .sequential (interactions.filter (fun i => i.type = InteractionType.jsonrpc_request)),
    total := countRequests interactions, matchedCount := 0, unmatched := [] }

/-- Model of `create_matcher("strict", interactions)`. -/
def initStrict (interactions : List Interaction) : MatcherS :=
  { impl := .strict (buildIndex strictKeyFor interactions),
    total := countRequests interactions, matchedCount := 0, unmatched := [] }

/-- One `match(request_body)` call against an indexed matcher: look up the
FIFO bucket under the key, pop its head when non-empty, otherwise record
a miss. -/
def indexedMatch (mkImpl : List (String × List Interaction) → MatcherImpl)
    (idx : List (String × List Interaction)) (m : MatcherS) (key : String)
    (body : JFields) : Option Interaction × MatcherS :=
  match lookupBucket idx key with
  | some (i :: rest) =>
      (some i, { m with impl := mkImpl (setBucket idx key rest),
                        matchedCount := m.matchedCount + 1 })
  | some [] => (none, { m with unmatched := m.unmatched ++ [body] })
  | none => (none, { m with unmatched := m.unmatched ++ [body] })

/-- Model of `Matcher.match` for all three strategies. -/
def matchStep (m : MatcherS) (body : JFields) : Option Interaction × MatcherS :=
  match m.impl with
  | .methodParams idx => indexedMatch .methodParams idx m (match_key_for body) body
  | .strict idx => indexedMatch .strict idx m (strictKeyFor body) body
  | .sequential (i :: rest) =>
      (some i, { m with impl := .sequential rest, matchedCount := m.matchedCount + 1 })
  | .sequential [] => (none, { m with unmatched := m.unmatched ++ [body] })

/-- Model of the `all_consumed` property. -/
def allConsumed (m : MatcherS) : Bool := m.total ≤ m.matchedCount

/-- Repeated `match` calls with one fixed body, collecting the per-call
results (used to state the FIFO claim). -/
def iterateMatch (m : MatcherS) (body : JFields) : Nat → List (Option Interaction) × MatcherS
  | 0 => ([], m)
  | k + 1 =>
      let (r, m2) := matchStep m body
      let (rs, m3) := iterateMatch m2 body k
      (r :: rs, m3)

/-- Sequence of `match` calls with per-call bodies, collecting only the
hit/miss outcome of each call. -/
def runHits (m : MatcherS) : List JFields → List Bool
  | [] => []
  | b :: bs =>
      let (r, m2) := matchStep m b
      r.isSome :: runHits m2 bs

/-! ### Cassette data model (`_types.py`) and persistence (`_utils.py`)

The metadata fields annotated `str | None` and `dict | None` are modelled
as `Option Json`: pydantic enforces the annotation when a cassette is
validated (modelled by `model_validate` below) but not on attribute
assignment, so `add_interaction` can store arbitrary JSON there, exactly
as the Python code can. -/

def CASSETTE_FORMAT_VERSION : String := "1.0"

structure CassetteMetadata where
  recorded_at : String
  server_url : String
  protocol_version : Option Json
  server_info : Option Json

structure Cassette where
  version : String
  metadata : CassetteMetadata
  interactions : List Interaction

/-- Python `s.split(".")` (single-character separator, no limit). -/
def splitDotAux : List Char → List Char → List String
  | [], acc => [String.mk acc.reverse]
  | c :: rest, acc =>
      if c.toNat = 46 then String.mk acc.reverse :: splitDotAux rest []
      else splitDotAux rest (c :: acc)

def splitDot (s : String) : List String := splitDotAux s.data []

/-- Major component of a version string (`version.split(".")[0]`). -/
def majorOf (v : String) : String := (splitDot v).headD ""

/-- Model of the `jsonrpc_method` property (`request.get("method")` when
the request is a dict, Python `None` otherwise). -/
def jsonrpcMethodJ (i : Interaction) : Json :=
  match i.request with
  | some r => pyGet r "method"
  | none => .null

/-- Model of `Cassette.add_interaction`: append, then extract
`result.protocolVersion` and `result.serverInfo` into the metadata when
the interaction is an `initialize` with a non-null response.  `none`
models the `AttributeError` the Python code raises when the stored
`result` value is neither a dict nor missing. -/
def add_interaction (c : Cassette) (i : Interaction) : Option Cassette :=
  let c2 : Cassette := { c with interactions := c.interactions ++ [i] }
  if jsonrpcMethodJ i == Json.str "initialize" && i.response.isSome then
    match i.response with
    | some rf =>
        match pyGetD rf "result" (.obj .nil) with
        | .obj resFs =>
            some { c2 with metadata := { c2.metadata with
                     protocol_version := pyOptGet resFs "protocolVersion",
                     server_info := pyOptGet resFs "serverInfo" } }
        | _ => none
    | none => none
  else some c2

/-- Serialization of an `str | None` field (`model_dump(mode="json")`). -/
def dumpOptStr : Option String → Json
  | none => .null
  | some s => .str s

/-- Serialization of a `dict | None` field. -/
def dumpOptFields : Option JFields → Json
  | none => .null
  | some fs => .obj fs

/-- Serialization of a metadata field that holds arbitrary runtime JSON. -/
def dumpOptJson : Option Json → Json
  | none => .null
  | some j => j

def typeTag : InteractionType → String
  | .jsonrpc_request => "jsonrpc_request"
  | .notification => "notification"
  | .lifecycle => "lifecycle"

/-- Field-order-faithful `model_dump(mode="json")` of one interaction. -/
def dumpInteraction (i : Interaction) : Json :=
  .obj (.cons "type" (.str (typeTag i.type))
    (.cons "request" (dumpOptFields i.request)
    (.cons "response" (dumpOptFields i.response)
    (.cons "response_is_sse" (.bool i.response_is_sse)
    (.cons "response_status" (.num i.response_status)
    (.cons "latency_ms" (.num i.latency_ms)
    (.cons "http_method" (dumpOptStr i.http_method)
    (.cons "http_path" (dumpOptStr i.http_path) .nil))))))))

def dumpInteractions : List Interaction → JList
  | [] => .nil
  | i :: rest => .cons (dumpInteraction i) (dumpInteractions rest)

def dumpMetadata (m : CassetteMetadata) : Json :=
  .obj (.cons "recorded_at" (.str m.recorded_at)
    (.cons "server_url" (.str m.server_url)
    (.cons "protocol_version" (dumpOptJson m.protocol_version)
    (.cons "server_info" (dumpOptJson m.server_info) .nil))))

/-- Model of `cassette.model_dump(mode="json")`, the JSON document
`save_cassette` pretty-prints to disk. -/
def model_dump (c : Cassette) : Json :=
  .obj (.cons "version" (.str c.version)
    (.cons "metadata" (dumpMetadata c.metadata)
    (.cons "interactions" (.arr (dumpInteractions c.interactions)) .nil)))

/-- Validation of one field with a default for a missing key (pydantic
defaults apply only when the key is absent, not when it is null). -/
def fieldOr {α : Type} (fs : JFields) (key : String) (dflt : α)
    (p : Json → Except String α) : Except String α :=
  match lookupField fs key with
  | none => .ok dflt
  | some v => p v

def parseStr : Json → Except String String
  | .str s => .ok s
  | _ => .error "Input should be a valid string"

def parseBool : Json → Except String Bool
  | .bool b => .ok b
  | _ => .error "Input should be a valid boolean"

def parseInt : Json → Except String Int
  | .num n => .ok n
  | _ => .error "Input should be a valid integer"

def parseOptStr : Json → Except String (Option String)
  | .null => .ok none
  | .str s => .ok (some s)
  | _ => .error "Input should be a valid string or null"

def parseOptFields : Json → Except String (Option JFields)
  | .null => .ok none
  | .obj fs => .ok (some fs)
  | _ => .error "Input should be a valid dictionary or null"

def parseOptJsonStr : Json → Except String (Option Json)
  | .null => .ok none
  | .str s => .ok (some (.str s))
  | _ => .error "Input should be a valid string or null"

def parseOptJsonObj : Json → Except String (Option Json)
  | .null => .ok none
  | .obj fs => .ok (some (.obj fs))
  | _ => .error "Input should be a valid dictionary or null"

def parseType : Json → Except String InteractionType
  | .str s =>
      if s = "jsonrpc_request" then .ok .jsonrpc_request
      else if s = "notification" then .ok .notification
      else if s = "lifecycle" then .ok .lifecycle
      else .error "Input should be a valid InteractionType"
  | _ => .error "Input should be a valid InteractionType"

def parseInteraction : Json → Except String Interaction
  | .obj fs => do
      let ty ← match lookupField fs "type" with
        | some t => parseType t
        | none => .error "type: field required"
      let req ← fieldOr fs "request" none parseOptFields
      let resp ← fieldOr fs "response" none parseOptFields
      let sse ← fieldOr fs "response_is_sse" false parseBool
      let status ← fieldOr fs "response_status" 200 parseInt
      let lat ← fieldOr fs "latency_ms" 0 parseInt
      let hm ← fieldOr fs "http_method" none parseOptStr
      let hp ← fieldOr fs "http_path" none parseOptStr
      .ok { type := ty, request := req, response := resp, response_is_sse := sse,
            response_status := status, latency_ms := lat,
            http_method := hm, http_path := hp }
  | _ => .error "Input should be a valid dictionary"

def parseInteractions : JList → Except String (List Interaction)
  | .nil => .ok []
  | .cons j rest => do
      let i ← parseInteraction j
      let l ← parseInteractions rest
      .ok (i :: l)

def parseMetadata (now : String) : Json → Except String CassetteMetadata
  | .obj fs => do
      let ra ← fieldOr fs "recorded_at" now parseStr
      let su ← fieldOr fs "server_url" "" parseStr
      let pv ← fieldOr fs "protocol_version" none parseOptJsonStr
      let si ← fieldOr fs "server_info" none parseOptJsonObj
      .ok { recorded_at := ra, server_url := su, protocol_version := pv, server_info := si }
  | _ => .error "Input should be a valid dictionary"

/-- Model of the `_check_format_version` model validator: compare the
major components and raise the diagnostic on mismatch. -/
def checkFormatVersion (c : Cassette) : Except String Cassette :=
  let expectedMajor := majorOf CASSETTE_FORMAT_VERSION
  let actualMajor := majorOf c.version
  if actualMajor = expectedMajor then .ok c
  else .error ("Incompatible cassette format version \x27" ++ c.version
    ++ "\x27 (expected " ++ expectedMajor
    ++ ".x). Re-record the cassette with the current version of mcp-recorder.")

/-- Model of `Cassette.model_validate(raw)` as called by `load_cassette`
(field validation with defaults, then the format-version validator).
The `now` parameter stands for the `datetime.now(UTC).isoformat()`
default of `recorded_at`. -/
def model_validate (now : String) : Json → Except String Cassette
  | .obj fs => do
      let v ← fieldOr fs "version" CASSETTE_FORMAT_VERSION parseStr
      let md ← fieldOr fs "metadata"
        { recorded_at := now, server_url := "", protocol_version := none, server_info := none }
        (parseMetadata now)
      let ints ← match lookupField fs "interactions" with
        | none => .ok []
        | some (.arr l) => parseInteractions l
        | some _ => .error "Input should be a valid list"
      checkFormatVersion { version := v, metadata := md, interactions := ints }
  | _ => .error "Input should be a valid dictionary"

/-- Well-formedness enforced by pydantic validation: the version major
matches, and the lazily-assigned metadata fields have their annotated
shapes.  Every cassette constructed by validation satisfies this. -/
def MetadataWF (m : CassetteMetadata) : Prop :=
  (m.protocol_version = none ∨ ∃ s, m.protocol_version = some (.str s)) ∧
  (m.server_info = none ∨ ∃ fs, m.server_info = some (.obj fs))

def CassetteWF (c : Cassette) : Prop :=
  majorOf c.version = majorOf CASSETTE_FORMAT_VERSION ∧ MetadataWF c.metadata

/-! ### Replay server POST handler (`replayer.py`)

The handler is modelled as a pure function of the session id, the
matcher state, and the result of `_parse_json` on the request bytes
(`none` models unparseable or empty bytes).  A response carries the HTTP
status, the `media_type` argument, the explicit header dict, and a body
descriptor; the wire bytes of a `jsonBytes` body are
`json.dumps(payload)` and those of an `sseEvent` body are
`_make_sse_body(payload)`. -/

inductive BodyOut where
  | empty : BodyOut
  | jsonBytes (payload : Json) : BodyOut
  | sseEvent (payload : Json) : BodyOut

structure ReplayResponse where
  status : Int
  mediaType : Option String
  headers : List (String × String)
  body : BodyOut

/-- Model of `_rewrite_id`: copy of the response with the `id` field set
to the request id — only when an `id` field is present. -/
def rewrite_id (response : JFields) (requestId : Json) : JFields :=
  if hasField response "id" then setFieldValue response "id" requestId
  else response

/-- Model of `_jsonrpc_error`. -/
def jsonrpcError (requestId : Json) (code : Int) (message : String) : Json :=
  .obj (.cons "jsonrpc" (.str "2.0")
    (.cons "id" requestId
    (.cons "error" (.obj (.cons "code" (.num code)
      (.cons "message" (.str message) .nil))) .nil)))

/-- Model of `_make_sse_body` (the wire bytes of an `sseEvent` body). -/
def makeSseBody (payload : Json) : String :=
  "event: message\ndata: " ++ dumpsJ false payload ++ "\n\n"

/-- Model of `_mcp_headers`. -/
def mcpHeaders (sessionId : String) : List (String × String) :=
  [("mcp-session-id", sessionId), ("cache-control", "no-cache, no-transform")]

/-- Model of `_notification_response`. -/
def notificationResponse (sessionId : String) : ReplayResponse :=
  { status := 202, mediaType := none,
    headers := [("content-type", "application/json"), ("mcp-session-id", sessionId)],
    body := .empty }

/-- Python truthiness of a dict (`if response_body:`). -/
def fieldsTruthy : JFields → Bool
  | .nil => false
  | .cons _ _ _ => true

/-- Tool-name tag appended to the no-match message when the incoming
params is a dict containing `name`. -/
def noMatchMessage (body : JFields) : String :=
  let method := pyGetD body "method" (.str "")
  let base := "No matching interaction for " ++ pyStr method
  match pyGet body "params" with
  | .obj ps => if hasField ps "name" then base ++ " [" ++ pyStr (pyGet ps "name") ++ "]" else base
  | _ => base

/-- Model of `create_replay_app._handle_post` on a parsed body. -/
def handlePost (sessionId : String) (m : MatcherS) (parsed : Option Json) :
    ReplayResponse × MatcherS :=
  match parsed with
  | some (.obj body) =>
      if hasField body "id" = false then (notificationResponse sessionId, m)
      else
        let requestId := pyGet body "id"
        match matchStep m body with
        | (none, m2) =>
            ({ status := 200, mediaType := some "application/json",
               headers := mcpHeaders sessionId,
               body := .jsonBytes (jsonrpcError requestId (-32600) (noMatchMessage body)) }, m2)
        | (some matched, m2) =>
            let responseBody := matched.response.map (fun r => rewrite_id r requestId)
            match matched.response_is_sse, responseBody with
            | true, some rw =>
                ({ status := matched.response_status, mediaType := some "text/event-stream",
                   headers := mcpHeaders sessionId, body := .sseEvent (.obj rw) }, m2)
            | _, _ =>
                ({ status := matched.response_status, mediaType := some "application/json",
                   headers := mcpHeaders sessionId,
                   body := match responseBody with
                     | some rw => if fieldsTruthy rw then .jsonBytes (.obj rw) else .empty
                     | none => .empty }, m2)
  | _ =>
      ({ status := 200, mediaType := some "application/json",
         headers := mcpHeaders sessionId,
         body := .jsonBytes (jsonrpcError .null (-32700) "Parse error: invalid JSON") }, m)

/-! ### Recording proxy (`proxy.py`)

The proxy handler is modelled as a pure function of the HTTP method and
path, the result of `_parse_json` on the request bytes, the measured
latency, the upstream outcome and the cassette.  `Upstream.failure`
models an `httpx.HTTPError` with its rendered detail;
`Upstream.success` carries the upstream status, content type, the
parsed non-SSE body (`_parse_json(upstream_resp.content)`), and, for
SSE responses, the JSON payloads extracted from `data:` lines by
`_parse_sse_data`, in stream order.  `none` as the overall result
models an exception escaping the handler (pydantic rejecting a non-dict
SSE payload, or `add_interaction` raising). -/

inductive Upstream where
  | failure (detail : String) : Upstream
  | success (status : Int) (contentType : String) (bodyParsed : Option Json)
      (sseEvents : List Json) : Upstream

structure ProxyResponse where
  status : Int
  body : BodyOut

/-- Model of `_classify_interaction`. -/
def classifyInteraction (method : String) (body : Option Json) : InteractionType :=
  if method = "DELETE" ∨ method = "GET" then .lifecycle
  else
    match body with
    | some (.obj fs) => if hasField fs "id" = false then .notification else .jsonrpc_request
    | _ => .jsonrpc_request

/-- Python `sub in s` for a non-empty substring (used for
`"text/event-stream" in content_type`). -/
def containsSub (s sub : String) : Bool :=
  (s.splitOn sub).length != 1

/-- The 502 upstream-error response, shared by `_proxy` and
`_handle_lifecycle`. -/
def upstreamErrorResponse (detail : String) : ProxyResponse :=
  { status := 502,
    body := .jsonBytes (.obj (.cons "error" (.str ("Upstream error: " ++ detail)) .nil)) }

/-- Dict payload of a request body when it is a dict (`req_body if
isinstance(req_body, dict) else None`). -/
def asDict : Option Json → Option JFields
  | some (.obj fs) => some fs
  | _ => none

/-- Model of `create_proxy_app._proxy` (with `_handle_sse_response` and
`_handle_lifecycle` inlined), for one exchange. -/
def proxyExchange (method path : String) (reqBody : Option Json) (latencyMs : Int)
    (up : Upstream) (cassette : Cassette) : Option (ProxyResponse × Cassette) :=
  let ity := classifyInteraction method reqBody
  match ity with
  | .lifecycle =>
      match up with
      | .failure detail => some (upstreamErrorResponse detail, cassette)
      | .success status contentType _ _ =>
          let isSse := containsSub contentType "text/event-stream"
          let interaction : Interaction :=
            { type := .lifecycle, http_method := some method, http_path := some path,
              response_is_sse := isSse, response_status := status, latency_ms := latencyMs }
          match add_interaction cassette interaction with
          | some c2 =>
              some ({ status := status, body := if isSse then .empty else .jsonBytes .null }, c2)
          | none => none
  | _ =>
      match up with
      | .failure detail => some (upstreamErrorResponse detail, cassette)
      | .success status contentType bodyParsed sseEvents =>
          let isSse := containsSub contentType "text/event-stream"
          if isSse then
            match sseEvents.head? with
            | some (.obj respFs) =>
                let interaction : Interaction :=
                  { type := ity, request := asDict reqBody, response := some respFs,
                    response_is_sse := true, response_status := status,
                    latency_ms := latencyMs }
                (add_interaction cassette interaction).map
                  (fun c2 => ({ status := status, body := .sseEvent (.obj respFs) }, c2))
            | some _ => none
            | none =>
                let interaction : Interaction :=
                  { type := ity, request := asDict reqBody, response := none,
                    response_is_sse := true, response_status := status,
                    latency_ms := latencyMs }
                (add_interaction cassette interaction).map
                  (fun c2 => ({ status := status, body := .empty }, c2))
          else
            let interaction : Interaction :=
              { type := ity, request := asDict reqBody, response := asDict bodyParsed,
                response_is_sse := false, response_status := status,
                latency_ms := latencyMs }
            (add_interaction cassette interaction).map
              (fun c2 => ({ status := status, body := .jsonBytes .null }, c2))

/-! ### Verifier normalization (`verifier.py`) -/

def VOLATILE_KEYS : List String := ["id", "_meta"]

/- Model of `_strip_volatile`: drop keys in the volatile set or the
`ignore_fields` set at any depth, drop a dict entry whose accumulated
dot-path is in `ignore_paths`, and recurse into arrays with `[i]` path
components. -/
mutual

def stripVolatileJ (ignF ignP : List String) : Json → String → Json
  | .obj fs, cur => .obj (stripVolatileF ignF ignP fs cur)
  | .arr xs, cur => .arr (stripVolatileL ignF ignP xs cur 0)
  | j, _ => j

def stripVolatileF (ignF ignP : List String) : JFields → String → JFields
  | .nil, _ => .nil
  | .cons k v tl, cur =>
      if k ∈ VOLATILE_KEYS ∨ k ∈ ignF then stripVolatileF ignF ignP tl cur
      else if (cur ++ "." ++ k) ∈ ignP then stripVolatileF ignF ignP tl cur
      else .cons k (stripVolatileJ ignF ignP v (cur ++ "." ++ k)) (stripVolatileF ignF ignP tl cur)

def stripVolatileL (ignF ignP : List String) : JList → String → Nat → JList
  | .nil, _, _ => .nil
  | .cons x xs, cur, i =>
      .cons (stripVolatileJ ignF ignP x (cur ++ "[" ++ toString i ++ "]"))
        (stripVolatileL ignF ignP xs cur (i + 1))

end

/-- Model of `_strip_volatile(obj, ignore_fields, ignore_paths)` with the
default root path. -/
def strip_volatile (ignF ignP : List String) (j : Json) : Json :=
  stripVolatileJ ignF ignP j "$"

/-! ### Helper lemmas -/

/-- Whether a JSON value is an object (Python `isinstance(body, dict)`). -/
def Json.isObj : Json → Bool
  | .obj _ => true
  | _ => false

theorem lookup_setFieldValue_self : ∀ (fs : JFields) (key : String) (v : Json),
    hasField fs key = true → lookupField (setFieldValue fs key v) key = some v
  | .nil, key, v, h => by simp [hasField] at h
  | .cons k v2 tl, key, v, h => by
      by_cases hk : k = key
      · simp [setFieldValue, lookupField, hk]
      · simp only [hasField, if_neg hk] at h
        simp [setFieldValue, lookupField, hk, lookup_setFieldValue_self tl key v h]

theorem lookup_setFieldValue_other : ∀ (fs : JFields) (key k2 : String) (v : Json),
    k2 ≠ key → lookupField (setFieldValue fs key v) k2 = lookupField fs k2
  | .nil, key, k2, v, h => by simp [setFieldValue]
  | .cons k v2 tl, key, k2, v, h => by
      by_cases hk : k = key
      · subst hk
        simp [setFieldValue, lookupField, Ne.symm h, lookup_setFieldValue_other tl k k2 v h]
      · by_cases hk2 : k = k2
        · subst hk2
          simp [setFieldValue, lookupField, h, hk]
        · simp [setFieldValue, lookupField, hk, hk2, lookup_setFieldValue_other tl key k2 v h]

/-! ### Claim C7 — notifications do not touch the matcher -/

/-- Claim C7: a replay POST whose parsed body is a JSON object without an
`id` key returns HTTP 202 with an empty body and the `mcp-session-id`
header, and leaves the matcher state — buckets or queue, matched count,
`all_consumed`, and `unmatched_requests` — completely unchanged. -/
theorem replay_notification_frame (sid : String) (m : MatcherS) (body : JFields)
    (h : hasField body "id" = false) :
    handlePost sid m (some (.obj body))
      = ({ status := 202, mediaType := none,
           headers := [("content-type", "application/json"), ("mcp-session-id", sid)],
           body := .empty }, m) ∧
    (handlePost sid m (some (.obj body))).2.impl = m.impl ∧
    (handlePost sid m (some (.obj body))).2.matchedCount = m.matchedCount ∧
    allConsumed (handlePost sid m (some (.obj body))).2 = allConsumed m ∧
    (handlePost sid m (some (.obj body))).2.unmatched = m.unmatched := by
  simp [handlePost, h, notificationResponse]

/-- Witness for C7: a concrete `notifications/initialized` body against a
concrete one-entry method_params matcher. -/
theorem replay_notification_frame_witness :
    handlePost "sess"
        (initMethodParams
          [{ type := .jsonrpc_request,
             request := some (.cons "jsonrpc" (.str "2.0")
               (.cons "id" (.num 1) (.cons "method" (.str "ping") .nil))),
             response := some (.cons "id" (.num 1) .nil) }])
        (some (.obj (.cons "jsonrpc" (.str "2.0")
          (.cons "method" (.str "notifications/initialized") .nil))))
      = ({ status := 202, mediaType := none,
           headers := [("content-type", "application/json"), ("mcp-session-id", "sess")],
           body := .empty },
         initMethodParams
          [{ type := .jsonrpc_request,
             request := some (.cons "jsonrpc" (.str "2.0")
               (.cons "id" (.num 1) (.cons "method" (.str "ping") .nil))),
             response := some (.cons "id" (.num 1) .nil) }]) := by
  exact (replay_notification_frame "sess" _ _ (by rfl)).1

/-! ### Claim C10 — non-object JSON bodies behave like unparseable bytes -/

/-- Claim C10: a replay POST whose body parses to valid JSON that is not
an object gets exactly the response of unparseable bytes — HTTP 200,
the `-32700` parse-error JSON-RPC body, the MCP headers — and the
matcher is not consulted. -/
theorem replay_nonobject_parse_error (sid : String) (m : MatcherS) (j : Json)
    (h : j.isObj = false) :
    handlePost sid m (some j) = handlePost sid m none ∧
    handlePost sid m none
      = ({ status := 200, mediaType := some "application/json",
           headers := mcpHeaders sid,
           body := .jsonBytes (jsonrpcError .null (-32700) "Parse error: invalid JSON") }, m) := by
  cases j with
  | obj fs => simp [Json.isObj] at h
  | null => exact ⟨rfl, rfl⟩
  | bool b => exact ⟨rfl, rfl⟩
  | num n => exact ⟨rfl, rfl⟩
  | str s => exact ⟨rfl, rfl⟩
  | arr xs => exact ⟨rfl, rfl⟩

/-- Witness for C10: a concrete JSON array body against a concrete
sequential matcher. -/
theorem replay_nonobject_parse_error_witness :
    handlePost "sess" (initSequential []) (some (.arr (.cons (.num 1) .nil)))
      = handlePost "sess" (initSequential []) none ∧
    handlePost "sess" (initSequential []) none
      = ({ status := 200, mediaType := some "application/json",
           headers := mcpHeaders "sess",
           body := .jsonBytes (jsonrpcError .null (-32700) "Parse error: invalid JSON") },
         initSequential []) := by
  exact replay_nonobject_parse_error "sess" (initSequential []) (.arr (.cons (.num 1) .nil)) (by rfl)

/-! ### Claim C8 — upstream transport errors record nothing -/

/-- Claim C8: when the upstream request raises a transport error, the
proxy answers 502 with the JSON body `error: Upstream error detail` and
the cassette is returned unchanged — no interaction is appended. -/
theorem proxy_upstream_error_atomic (method path : String) (reqBody : Option Json)
    (latencyMs : Int) (detail : String) (cassette : Cassette) :
    proxyExchange method path reqBody latencyMs (.failure detail) cassette
      = some ({ status := 502,
                body := .jsonBytes (.obj (.cons "error"
                  (.str ("Upstream error: " ++ detail)) .nil)) }, cassette) := by
  unfold proxyExchange
  cases classifyInteraction method reqBody <;> rfl

/-! ### Claim C1 — id rewrite on replayed responses -/

/-- Claim C1 (amended): for every replayed JSON-RPC request the matcher
resolves to a recorded interaction with a non-null response, the body
payload is the recorded response with only its `id` field rewritten —
when the recorded response contains an `id` field it is set to the
incoming request's `id`, every other field is returned unmodified, and
a recorded response without an `id` field is returned entirely
unmodified. -/
theorem replay_id_rewrite (sid : String) (m : MatcherS) (body : JFields)
    (matched : Interaction) (m2 : MatcherS) (r : JFields)
    (hid : hasField body "id" = true)
    (hm : matchStep m body = (some matched, m2))
    (hr : matched.response = some r) :
    (handlePost sid m (some (.obj body))).1.body
      = (if matched.response_is_sse then BodyOut.sseEvent (.obj (rewrite_id r (pyGet body "id")))
         else if fieldsTruthy (rewrite_id r (pyGet body "id"))
         then BodyOut.jsonBytes (.obj (rewrite_id r (pyGet body "id")))
         else BodyOut.empty) ∧
    (hasField r "id" = true →
      lookupField (rewrite_id r (pyGet body "id")) "id" = some (pyGet body "id")) ∧
    (∀ k, k ≠ "id" → lookupField (rewrite_id r (pyGet body "id")) k = lookupField r k) ∧
    (hasField r "id" = false → rewrite_id r (pyGet body "id") = r) := by
  refine ⟨?_, ?_, ?_, ?_⟩
  · simp only [handlePost, hid, Bool.true_eq_false, if_false, hm, hr, Option.map_some]
    cases hsse : matched.response_is_sse <;> simp
  · intro h
    simp [rewrite_id, h, lookup_setFieldValue_self r "id" (pyGet body "id") h]
  · intro k hk
    unfold rewrite_id
    by_cases h : hasField r "id"
    · simp [h, lookup_setFieldValue_other r "id" k (pyGet body "id") hk]
    · simp [h]
  · intro h
    simp [rewrite_id, h]

/-- Witness for C1: a concrete SSE-recorded `tools/call`-style cassette,
matched by a request with id 99; the recorded response's id 7 is
rewritten to 99 and the `result` field is untouched. -/
theorem replay_id_rewrite_witness :
    (handlePost "sess"
        (initMethodParams
          [{ type := .jsonrpc_request,
             request := some (.cons "jsonrpc" (.str "2.0")
               (.cons "id" (.num 7) (.cons "method" (.str "ping") .nil))),
             response := some (.cons "jsonrpc" (.str "2.0")
               (.cons "id" (.num 7) (.cons "result" (.str "pong") .nil))),
             response_is_sse := true }])
        (some (.obj (.cons "jsonrpc" (.str "2.0")
          (.cons "id" (.num 99) (.cons "method" (.str "ping") .nil)))))).1.body
      = .sseEvent (.obj (.cons "jsonrpc" (.str "2.0")
          (.cons "id" (.num 99) (.cons "result" (.str "pong") .nil))) ) := by
  have h := (replay_id_rewrite "sess"
    (initMethodParams
      [{ type := .jsonrpc_request,
         request := some (.cons "jsonrpc" (.str "2.0")
           (.cons "id" (.num 7) (.cons "method" (.str "ping") .nil))),
         response := some (.cons "jsonrpc" (.str "2.0")
           (.cons "id" (.num 7) (.cons "result" (.str "pong") .nil))),
         response_is_sse := true }])
    (.cons "jsonrpc" (.str "2.0")
      (.cons "id" (.num 99) (.cons "method" (.str "ping") .nil)))
    { type := .jsonrpc_request,
      request := some (.cons "jsonrpc" (.str "2.0")
        (.cons "id" (.num 7) (.cons "method" (.str "ping") .nil))),
      response := some (.cons "jsonrpc" (.str "2.0")
        (.cons "id" (.num 7) (.cons "result" (.str "pong") .nil))),
      response_is_sse := true }
    { impl := .methodParams [("ping::74234e98afe7498f", [])],
      total := 1, matchedCount := 1, unmatched := [] }
    (.cons "jsonrpc" (.str "2.0")
      (.cons "id" (.num 7) (.cons "result" (.str "pong") .nil)))
    (by rfl) (by rfl) (by rfl)).1
  exact h.trans (by rfl)

/-- Counterexample for C1 as stated: when the recorded non-null response
has no `id` field (here `response = \x7b"result": 5\x7d`), the replayed
body is returned without any `id` field, so its `id` is not the incoming
request's id 99. -/
theorem replay_id_rewrite_cex :
    (handlePost "sess"
        (initMethodParams
          [{ type := .jsonrpc_request,
             request := some (.cons "jsonrpc" (.str "2.0")
               (.cons "id" (.num 7) (.cons "method" (.str "ping") .nil))),
             response := some (.cons "result" (.num 5) .nil) }])
        (some (.obj (.cons "jsonrpc" (.str "2.0")
          (.cons "id" (.num 99) (.cons "method" (.str "ping") .nil)))))).1.body
      = .jsonBytes (.obj (.cons "result" (.num 5) .nil)) ∧
    lookupField (.cons "result" (.num 5) .nil) "id" = none := by
  exact ⟨by rfl, by rfl⟩

/-! ### Claim C3 — initialize metadata extraction -/

/-- Claim C3 (amended): adding any interaction whose method is
`initialize` with a non-null response whose `result` is a dict sets the
cassette metadata's `protocol_version` and `server_info` to that
result's `protocolVersion` and `serverInfo` — also when an earlier
initialize had already populated them, so the last initialize wins. -/
theorem add_interaction_initialize_extracts (c : Cassette) (i : Interaction)
    (rf resFs : JFields)
    (hm : jsonrpcMethodJ i = .str "initialize")
    (hr : i.response = some rf)
    (hres : pyGetD rf "result" (.obj .nil) = .obj resFs) :
    add_interaction c i
      = some { c with
          metadata := { c.metadata with
            protocol_version := pyOptGet resFs "protocolVersion",
            server_info := pyOptGet resFs "serverInfo" },
          interactions := c.interactions ++ [i] } := by
  unfold add_interaction
  rw [hm, hr]
  simp only [Option.isSome_some, Bool.and_true]
  rw [hres]
  rfl

/-- Witness for C3 (amended): a second initialize overwrites the
metadata captured from the first. -/
theorem add_interaction_initialize_extracts_witness :
    add_interaction
        { version := "1.0",
          metadata := { recorded_at := "t", server_url := "u",
                        protocol_version := some (.str "A"),
                        server_info := some (.obj (.cons "name" (.str "s1") .nil)) },
          interactions := [] }
        { type := .jsonrpc_request,
          request := some (.cons "method" (.str "initialize") .nil),
          response := some (.cons "result" (.obj
            (.cons "protocolVersion" (.str "B")
              (.cons "serverInfo" (.obj (.cons "name" (.str "s2") .nil)) .nil))) .nil) }
      = some
        { version := "1.0",
          metadata := { recorded_at := "t", server_url := "u",
                        protocol_version := some (.str "B"),
                        server_info := some (.obj (.cons "name" (.str "s2") .nil)) },
          interactions :=
            [{ type := .jsonrpc_request,
               request := some (.cons "method" (.str "initialize") .nil),
               response := some (.cons "result" (.obj
                 (.cons "protocolVersion" (.str "B")
                   (.cons "serverInfo" (.obj (.cons "name" (.str "s2") .nil)) .nil))) .nil) }] } := by
  exact add_interaction_initialize_extracts _ _
    (.cons "result" (.obj (.cons "protocolVersion" (.str "B")
      (.cons "serverInfo" (.obj (.cons "name" (.str "s2") .nil)) .nil))) .nil)
    (.cons "protocolVersion" (.str "B")
      (.cons "serverInfo" (.obj (.cons "name" (.str "s2") .nil)) .nil))
    (by rfl) (by rfl) (by rfl)

/-- Counterexample for C3 as stated: with an empty starting cassette, a
first initialize whose result carries protocolVersion A followed by a
second initialize carrying protocolVersion B leaves the metadata at B,
not A — later initializes do overwrite. -/
theorem add_interaction_initialize_cex :
    ((add_interaction
        { version := "1.0",
          metadata := { recorded_at := "t", server_url := "u",
                        protocol_version := none, server_info := none },
          interactions := [] }
        { type := .jsonrpc_request,
          request := some (.cons "method" (.str "initialize") .nil),
          response := some (.cons "result" (.obj
            (.cons "protocolVersion" (.str "A")
              (.cons "serverInfo" (.obj (.cons "name" (.str "s1") .nil)) .nil))) .nil) }).bind
      (fun c => add_interaction c
        { type := .jsonrpc_request,
          request := some (.cons "method" (.str "initialize") .nil),
          response := some (.cons "result" (.obj
            (.cons "protocolVersion" (.str "B")
              (.cons "serverInfo" (.obj (.cons "name" (.str "s2") .nil)) .nil))) .nil) })).map
      (fun c => c.metadata.protocol_version)
      = some (some (.str "B")) ∧
    some (Json.str "B") ≠ some (Json.str "A") := by
  exact ⟨by rfl, by simp⟩

/-! ### Round-trip lemmas for persistence -/

theorem parseInteraction_dump (i : Interaction) :
    parseInteraction (dumpInteraction i) = .ok i := by
  obtain ⟨ty, req, resp, sse, status, lat, hm, hp⟩ := i
  cases ty <;> cases req <;> cases resp <;> cases hm <;> cases hp <;> rfl

theorem parseInteractions_dump (l : List Interaction) :
    parseInteractions (dumpInteractions l) = .ok l := by
  induction l with
  | nil => rfl
  | cons i rest ih =>
      simp only [dumpInteractions, parseInteractions, parseInteraction_dump i, ih]
      rfl

theorem parseMetadata_dump (now : String) (md : CassetteMetadata)
    (h : MetadataWF md) :
    parseMetadata now (dumpMetadata md) = .ok md := by
  obtain ⟨ra, su, pv, si⟩ := md
  obtain ⟨hpv, hsi⟩ := h
  rcases hpv with hpv | ⟨s, hpv⟩ <;> rcases hsi with hsi | ⟨fs, hsi⟩ <;>
    simp only at hpv hsi <;> subst hpv <;> subst hsi <;> rfl

theorem validate_dump (now : String) (c : Cassette) (h : MetadataWF c.metadata) :
    model_validate now (model_dump c) = checkFormatVersion c := by
  obtain ⟨v, md, ints⟩ := c
  simp only [model_dump, model_validate]
  simp [fieldOr, lookupField, parseStr, parseMetadata_dump now md h,
    parseInteractions_dump ints]
  rfl

/-! ### Claim C5 — cassette round-trip -/

/-- Claim C5: for every cassette value (with the pydantic-validated field
shapes), validating its serialized JSON document yields it back exactly:
version, metadata fields, and the interactions list with its order and
every field of every interaction are preserved. -/
theorem cassette_roundtrip (now : String) (c : Cassette) (h : CassetteWF c) :
    model_validate now (model_dump c) = .ok c := by
  rw [validate_dump now c h.2]
  unfold checkFormatVersion
  rw [h.1]
  simp

/-- Witness for C5: a concrete two-interaction cassette with populated
metadata survives the round trip. -/
theorem cassette_roundtrip_witness :
    model_validate "NOW" (model_dump
      { version := "1.0",
        metadata := { recorded_at := "2026-01-01T00:00:00+00:00",
                      server_url := "http://localhost:3000/mcp",
                      protocol_version := some (.str "2025-06-18"),
                      server_info := some (.obj (.cons "name" (.str "srv") .nil)) },
        interactions :=
          [{ type := .jsonrpc_request,
             request := some (.cons "jsonrpc" (.str "2.0")
               (.cons "id" (.num 1) (.cons "method" (.str "initialize") .nil))),
             response := some (.cons "jsonrpc" (.str "2.0")
               (.cons "id" (.num 1) (.cons "result" (.obj .nil) .nil))),
             response_is_sse := true, response_status := 200, latency_ms := 12 },
           { type := .lifecycle, http_method := some "DELETE", http_path := some "/mcp",
             response_status := 200, latency_ms := 3 }] })
      = .ok
      { version := "1.0",
        metadata := { recorded_at := "2026-01-01T00:00:00+00:00",
                      server_url := "http://localhost:3000/mcp",
                      protocol_version := some (.str "2025-06-18"),
                      server_info := some (.obj (.cons "name" (.str "srv") .nil)) },
        interactions :=
          [{ type := .jsonrpc_request,
             request := some (.cons "jsonrpc" (.str "2.0")
               (.cons "id" (.num 1) (.cons "method" (.str "initialize") .nil))),
             response := some (.cons "jsonrpc" (.str "2.0")
               (.cons "id" (.num 1) (.cons "result" (.obj .nil) .nil))),
             response_is_sse := true, response_status := 200, latency_ms := 12 },
           { type := .lifecycle, http_method := some "DELETE", http_path := some "/mcp",
             response_status := 200, latency_ms := 3 }] } := by
  exact cassette_roundtrip "NOW" _
    ⟨by rfl, Or.inr ⟨_, rfl⟩, Or.inr ⟨_, rfl⟩⟩

/-! ### Claim C6 — major-version gate at load -/

/-- Claim C6: validating a cassette document whose version has a major
component other than 1 fails with a diagnostic mentioning that 1.x was
expected and returns no cassette value, while a major component of 1
succeeds no matter the minor component. -/
theorem cassette_version_gate (now : String) (c : Cassette)
    (hwf : MetadataWF c.metadata) :
    (majorOf c.version ≠ "1" →
      model_validate now (model_dump c)
        = .error ("Incompatible cassette format version \x27" ++ c.version
            ++ "\x27 (expected 1.x). Re-record the cassette with the current version of mcp-recorder.") ∧
      ∃ pre post, model_validate now (model_dump c) = .error (pre ++ "expected 1.x" ++ post)) ∧
    (majorOf c.version = "1" → model_validate now (model_dump c) = .ok c) := by
  constructor
  · intro hne
    have hc : ¬ (majorOf c.version = majorOf CASSETTE_FORMAT_VERSION) :=
      fun hq => hne (hq.trans (by rfl))
    have he : model_validate now (model_dump c)
        = .error ("Incompatible cassette format version \x27" ++ c.version
            ++ "\x27 (expected " ++ majorOf CASSETTE_FORMAT_VERSION
            ++ ".x). Re-record the cassette with the current version of mcp-recorder.") := by
      rw [validate_dump now c hwf]
      unfold checkFormatVersion
      rw [if_neg hc]
    constructor
    · rw [he]
      congr 1
      simp only [String.append_assoc]
      congr 1
    · refine ⟨"Incompatible cassette format version \x27" ++ c.version ++ "\x27 (",
        "). Re-record the cassette with the current version of mcp-recorder.", ?_⟩
      rw [he]
      congr 1
      simp only [String.append_assoc]
      congr 1
  · intro heq
    exact cassette_roundtrip now c ⟨by rw [heq]; rfl, hwf⟩

/-- Witness for C6: version 2.0 is rejected with the 1.x diagnostic while
version 1.7 loads, on a concrete cassette. -/
theorem cassette_version_gate_witness :
    model_validate "NOW" (model_dump
      { version := "2.0",
        metadata := { recorded_at := "t", server_url := "u",
                      protocol_version := none, server_info := none },
        interactions := [] })
      = .error ("Incompatible cassette format version \x272.0\x27 (expected 1.x). "
          ++ "Re-record the cassette with the current version of mcp-recorder.") ∧
    model_validate "NOW" (model_dump
      { version := "1.7",
        metadata := { recorded_at := "t", server_url := "u",
                      protocol_version := none, server_info := none },
        interactions := [] })
      = .ok
      { version := "1.7",
        metadata := { recorded_at := "t", server_url := "u",
                      protocol_version := none, server_info := none },
        interactions := [] } := by
  constructor
  · have h := (cassette_version_gate "NOW"
      { version := "2.0",
        metadata := { recorded_at := "t", server_url := "u",
                      protocol_version := none, server_info := none },
        interactions := [] }
      ⟨Or.inl rfl, Or.inl rfl⟩).1 (by simp [majorOf, splitDot, splitDotAux])
    exact h.1.trans (by rfl)
  · exact (cassette_version_gate "NOW"
      { version := "1.7",
        metadata := { recorded_at := "t", server_url := "u",
                      protocol_version := none, server_info := none },
        interactions := [] }
      ⟨Or.inl rfl, Or.inl rfl⟩).2 (by rfl)

/-! ### Claim C2 — method_params FIFO consumption -/

/-- The `jsonrpc_request` interactions of a cassette whose request
indexes under a given key, in recorded order. -/
def matchingRequests (keyFn : JFields → String) (key : String)
    (l : List Interaction) : List Interaction :=
  l.filter (fun i =>
    match i.type, i.request with
    | .jsonrpc_request, some r => keyFn r == key
    | _, _ => false)

theorem lookupBucket_bucketAppend (idx : List (String × List Interaction))
    (k : String) (i : Interaction) (key : String) :
    lookupBucket (bucketAppend idx k i) key
      = if k = key then some ((lookupBucket idx key).getD [] ++ [i])
        else lookupBucket idx key := by
  induction idx with
  | nil =>
      by_cases hk : k = key <;> simp [bucketAppend, lookupBucket, hk]
  | cons hd rest ih =>
      obtain ⟨k2, b⟩ := hd
      by_cases h2 : k2 = k
      · subst h2
        by_cases hk : k2 = key <;> simp [bucketAppend, lookupBucket, hk]
      · by_cases hk2 : k2 = key
        · subst hk2
          have : ¬ k = k2 := fun h => h2 h.symm
          simp [bucketAppend, lookupBucket, h2, this, ih]
        · simp [bucketAppend, lookupBucket, h2, hk2, ih]

theorem lookupBucket_setBucket_self (idx : List (String × List Interaction))
    (key : String) (b0 b : List Interaction) (h : lookupBucket idx key = some b0) :
    lookupBucket (setBucket idx key b) key = some b := by
  induction idx with
  | nil => simp [lookupBucket] at h
  | cons hd rest ih =>
      obtain ⟨k2, old⟩ := hd
      by_cases hk : k2 = key
      · simp [setBucket, lookupBucket, hk]
      · simp only [lookupBucket, if_neg hk] at h
        simp [setBucket, lookupBucket, hk, ih h]

/-- Combination of an existing bucket with newly indexed interactions
(`none` = the key was never created by `setdefault`). -/
def bucketCombine : Option (List Interaction) → List Interaction → Option (List Interaction)
  | none, [] => none
  | none, rel => some rel
  | some b, rel => some (b ++ rel)

theorem lookupBucket_buildFold (keyFn : JFields → String) (key : String) :
    ∀ (l : List Interaction) (idx : List (String × List Interaction)),
    lookupBucket
        (l.foldl (fun idx i =>
          match i.type, i.request with
          | .jsonrpc_request, some r => bucketAppend idx (keyFn r) i
          | _, _ => idx) idx) key
      = bucketCombine (lookupBucket idx key) (matchingRequests keyFn key l) := by
  intro l
  induction l with
  | nil =>
      intro idx
      cases h : lookupBucket idx key <;> simp [matchingRequests, bucketCombine, h]
  | cons i l ih =>
      intro idx
      simp only [List.foldl_cons]
      cases hty : i.type with
      | jsonrpc_request =>
          cases hreq : i.request with
          | none => simp [hty, hreq, ih, matchingRequests, List.filter_cons]
          | some r =>
              by_cases hk : keyFn r = key
              · subst hk
                rw [show (List.foldl _ (bucketAppend idx (keyFn r) i) l)
                      = List.foldl (fun idx i =>
                          match i.type, i.request with
                          | InteractionType.jsonrpc_request, some r => bucketAppend idx (keyFn r) i
                          | _, _ => idx) (bucketAppend idx (keyFn r) i) l from rfl]
                rw [ih (bucketAppend idx (keyFn r) i)]
                rw [lookupBucket_bucketAppend]
                simp only [if_pos rfl]
                have hf : matchingRequests keyFn (keyFn r) (i :: l)
                    = i :: matchingRequests keyFn (keyFn r) l := by
                  simp [matchingRequests, List.filter_cons, hty, hreq]
                rw [hf]
                cases hb : lookupBucket idx (keyFn r) with
                | none =>
                    cases hrel : matchingRequests keyFn (keyFn r) l <;>
                      simp [bucketCombine, hrel]
                | some b0 =>
                    cases hrel : matchingRequests keyFn (keyFn r) l <;>
                      simp [bucketCombine, hrel]
              · rw [ih (bucketAppend idx (keyFn r) i)]
                rw [lookupBucket_bucketAppend]
                simp only [if_neg hk]
                have hf : matchingRequests keyFn key (i :: l)
                    = matchingRequests keyFn key l := by
                  simp [matchingRequests, List.filter_cons, hty, hreq, hk]
                rw [hf]
      | notification => simp [hty, ih, matchingRequests, List.filter_cons]
      | lifecycle => simp [hty, ih, matchingRequests, List.filter_cons]

theorem iterate_methodParams_none (body : JFields) :
    ∀ (k : Nat) (idx : List (String × List Interaction)) (t mc : Nat) (um : List JFields),
    lookupBucket idx (match_key_for body) = none →
    (iterateMatch { impl := .methodParams idx, total := t, matchedCount := mc,
                    unmatched := um } body k).1
      = (List.range k).map (fun j => (([] : List Interaction)).get? j) := by
  intro k
  induction k with
  | zero => intro idx t mc um h; rfl
  | succ k ih =>
      intro idx t mc um h
      simp only [iterateMatch, matchStep, indexedMatch, h]
      rw [List.range_succ_eq_map]
      simp only [List.map_cons, List.map_map]
      congr 1
      · rw [ih idx t mc (um ++ [body]) h]
        apply List.map_congr_left
        intro j hj
        rfl

theorem iterate_methodParams_bucket (body : JFields) :
    ∀ (k : Nat) (rest : List Interaction) (idx : List (String × List Interaction))
      (t mc : Nat) (um : List JFields),
    lookupBucket idx (match_key_for body) = some rest →
    (iterateMatch { impl := .methodParams idx, total := t, matchedCount := mc,
                    unmatched := um } body k).1
      = (List.range k).map rest.get? := by
  intro k
  induction k with
  | zero => intro rest idx t mc um h; rfl
  | succ k ih =>
      intro rest idx t mc um h
      cases rest with
      | nil =>
          simp only [iterateMatch, matchStep, indexedMatch, h]
          rw [List.range_succ_eq_map]
          simp only [List.map_cons, List.map_map]
          congr 1
          · rw [ih [] idx t mc (um ++ [body]) h]
            apply List.map_congr_left
            intro j hj
            rfl
      | cons i0 rest2 =>
          simp only [iterateMatch, matchStep, indexedMatch, h]
          rw [List.range_succ_eq_map]
          simp only [List.map_cons, List.map_map]
          congr 1
          · rw [ih rest2 (setBucket idx (match_key_for body) rest2) t (mc + 1) um
                (lookupBucket_setBucket_self idx (match_key_for body) (i0 :: rest2) rest2 h)]
            apply List.map_congr_left
            intro j hj
            rfl

/-- Claim C2: against any cassette, the method_params matcher answers a
sequence of `k` identical match calls with the first `min(k, n)`
interactions that were recorded under the incoming body's stable key, in
recorded order, one per call; every call past the `n`-th misses
(returns none). -/
theorem method_params_fifo (interactions : List Interaction) (body : JFields) (k : Nat) :
    (iterateMatch (initMethodParams interactions) body k).1
      = (List.range k).map
          (matchingRequests match_key_for (match_key_for body) interactions).get? := by
  have hb : lookupBucket (buildIndex match_key_for interactions) (match_key_for body)
      = bucketCombine none
          (matchingRequests match_key_for (match_key_for body) interactions) :=
    lookupBucket_buildFold match_key_for (match_key_for body) interactions []
  cases hrel : matchingRequests match_key_for (match_key_for body) interactions with
  | nil =>
      rw [hrel] at hb
      exact iterate_methodParams_none body k _ _ _ _ hb
  | cons r0 rel2 =>
      rw [hrel] at hb
      exact iterate_methodParams_bucket body k (r0 :: rel2) _ _ _ _ hb

/-! ### Claim C4 — `_meta` independence of method_params matching

The claim is a two-run comparison: one run on a cassette and request
stream, the other on the same cassette and stream with the top-level
`_meta` key of some params dicts replaced or removed.  The relations
below describe exactly that edit, and the theorem shows the hit/miss
outcome of every match call is unchanged. -/

/-- Replacement of the value stored under `_meta`, keeping its position. -/
def replaceMetaValue : JFields → Json → JFields
  | .nil, _ => .nil
  | .cons k v tl, m =>
      if k = "_meta" then .cons k m (replaceMetaValue tl m)
      else .cons k v (replaceMetaValue tl m)

/-- Python dict assignment of a fresh key (appended at the end). -/
def appendField : JFields → String → Json → JFields
  | .nil, k, v => .cons k v .nil
  | .cons k2 v2 tl, k, v => .cons k2 v2 (appendField tl k v)

/-- Setting the top-level `_meta` of a params dict to a new value
(replace in place when present, append when absent). -/
def setMetaTop (fs : JFields) (m : Json) : JFields :=
  if hasField fs "_meta" then replaceMetaValue fs m
  else appendField fs "_meta" m

/-- The edit the claim quantifies over, at the params-value level:
unchanged, `_meta` replaced, or `_meta` removed. -/
def MetaEdit (p q : Json) : Prop :=
  q = p ∨
  (∃ fs m, p = .obj fs ∧ q = .obj (setMetaTop fs m)) ∨
  (∃ fs, p = .obj fs ∧ q = .obj (normalizeParamsFields fs))

/-- The edit at the request/body level: unchanged, or the `params` value
replaced by a `MetaEdit` of itself. -/
def ReqEdit (r r2 : JFields) : Prop :=
  r2 = r ∨
  ∃ p p2, lookupField r "params" = some p ∧ MetaEdit p p2 ∧
    r2 = setFieldValue r "params" p2

/-- The edit at the interaction level: unchanged, or its request body
edited by `ReqEdit`. -/
def InteractionEdit (i i2 : Interaction) : Prop :=
  i2 = i ∨
  ∃ r r2, i.request = some r ∧ ReqEdit r r2 ∧ i2 = { i with request := some r2 }

theorem normalize_replaceMetaValue : ∀ (fs : JFields) (m : Json),
    normalizeParamsFields (replaceMetaValue fs m) = normalizeParamsFields fs
  | .nil, _ => rfl
  | .cons k v tl, m => by
      by_cases hk : k = "_meta" <;>
        simp [replaceMetaValue, normalizeParamsFields, hk, normalize_replaceMetaValue tl m]

theorem normalize_appendMeta : ∀ (fs : JFields) (m : Json),
    normalizeParamsFields (appendField fs "_meta" m) = normalizeParamsFields fs
  | .nil, m => rfl
  | .cons k v tl, m => by
      by_cases hk : k = "_meta" <;>
        simp [appendField, normalizeParamsFields, hk, normalize_appendMeta tl m]

theorem normalizeParamsFields_idem : ∀ fs : JFields,
    normalizeParamsFields (normalizeParamsFields fs) = normalizeParamsFields fs
  | .nil => rfl
  | .cons k v tl => by
      by_cases hk : k = "_meta" <;>
        simp [normalizeParamsFields, hk, normalizeParamsFields_idem tl]

theorem normalizeIfDict_metaEdit (p p2 : Json) (h : MetaEdit p p2) :
    normalizeIfDict p2 = normalizeIfDict p := by
  rcases h with rfl | ⟨fs, m, rfl, rfl⟩ | ⟨fs, rfl, rfl⟩
  · rfl
  · unfold setMetaTop
    by_cases hm : hasField fs "_meta"
    · simp [hm, normalizeIfDict, normalize_replaceMetaValue]
    · simp [hm, normalizeIfDict, normalize_appendMeta]
  · simp [normalizeIfDict, normalizeParamsFields_idem]

theorem hasField_of_lookup : ∀ (fs : JFields) (k : String) (v : Json),
    lookupField fs k = some v → hasField fs k = true
  | .nil, k, v, h => by simp [lookupField] at h
  | .cons k2 v2 tl, k, v, h => by
      by_cases hk : k2 = k
      · simp [hasField, hk]
      · simp only [lookupField, if_neg hk] at h
        simp [hasField, hk, hasField_of_lookup tl k v h]

theorem matchKey_reqEdit (r r2 : JFields) (h : ReqEdit r r2) :
    match_key_for r2 = match_key_for r := by
  rcases h with rfl | ⟨p, p2, hp, hme, rfl⟩
  · rfl
  · have hm : lookupField (setFieldValue r "params" p2) "method" = lookupField r "method" :=
      lookup_setFieldValue_other r "params" "method" p2 (by decide)
    have hps : lookupField (setFieldValue r "params" p2) "params" = some p2 :=
      lookup_setFieldValue_self r "params" p2 (hasField_of_lookup r "params" p hp)
    unfold match_key_for
    simp only [pyGetD, pyGet, hm, hps, hp, Option.getD_some]
    rw [normalizeIfDict_metaEdit p p2 hme]

/-- What index construction sees of an interaction: its key when it is a
`jsonrpc_request` with a request body, nothing otherwise. -/
def sigOf (i : Interaction) : Option String :=
  match i.type, i.request with
  | .jsonrpc_request, some r => some (match_key_for r)
  | _, _ => none

theorem sig_interactionEdit (i i2 : Interaction) (h : InteractionEdit i i2) :
    i2.type = i.type ∧ sigOf i2 = sigOf i := by
  rcases h with rfl | ⟨r, r2, hreq, hre, rfl⟩
  · exact ⟨rfl, rfl⟩
  · refine ⟨rfl, ?_⟩
    show sigOf { i with request := some r2 } = sigOf i
    cases hty : i.type <;>
      simp [sigOf, hty, hreq, matchKey_reqEdit r r2 hre]

/-- Shape of a matcher index: keys with bucket lengths (what hit/miss
outcomes depend on). -/
def idxShape (idx : List (String × List Interaction)) : List (String × Nat) :=
  idx.map (fun kb => (kb.1, kb.2.length))

def shapeAppend : List (String × Nat) → String → List (String × Nat)
  | [], key => [(key, 1)]
  | (k, n) :: rest, key =>
      if k = key then (k, n + 1) :: rest else (k, n) :: shapeAppend rest key

theorem idxShape_bucketAppend (idx : List (String × List Interaction))
    (k : String) (i : Interaction) :
    idxShape (bucketAppend idx k i) = shapeAppend (idxShape idx) k := by
  induction idx with
  | nil => rfl
  | cons hd rest ih =>
      obtain ⟨k2, b⟩ := hd
      by_cases hk : k2 = k
      · simp [bucketAppend, idxShape, shapeAppend, hk]
      · simp only [bucketAppend, if_neg hk, idxShape, List.map_cons, shapeAppend,
          List.cons.injEq, true_and]
        simpa [idxShape] using ih

theorem step_shape (i1 i2 : Interaction) (h : InteractionEdit i1 i2)
    (idx1 idx2 : List (String × List Interaction))
    (hs : idxShape idx1 = idxShape idx2) :
    idxShape (match i1.type, i1.request with
      | .jsonrpc_request, some r => bucketAppend idx1 (match_key_for r) i1
      | _, _ => idx1)
      = idxShape (match i2.type, i2.request with
      | .jsonrpc_request, some r => bucketAppend idx2 (match_key_for r) i2
      | _, _ => idx2) := by
  obtain ⟨hty, hsig⟩ := sig_interactionEdit i1 i2 h
  cases h1 : i1.type with
  | jsonrpc_request =>
      rw [h1] at hty
      cases hr1 : i1.request with
      | none =>
          cases hr2 : i2.request with
          | none => simp only [h1, hty, hr1, hr2]; exact hs
          | some r2 => simp [sigOf, h1, hty, hr1, hr2] at hsig
      | some r1 =>
          cases hr2 : i2.request with
          | none => simp [sigOf, h1, hty, hr1, hr2] at hsig
          | some r2 =>
              simp only [sigOf, h1, hty, hr1, hr2, Option.some.injEq] at hsig
              simp only [h1, hty, hr1, hr2]
              rw [idxShape_bucketAppend, idxShape_bucketAppend, hs, hsig]
  | notification =>
      rw [h1] at hty
      simp only [h1, hty]
      cases i1.request <;> cases i2.request <;> exact hs
  | lifecycle =>
      rw [h1] at hty
      simp only [h1, hty]
      cases i1.request <;> cases i2.request <;> exact hs

theorem buildIndex_shape : ∀ (l1 l2 : List Interaction),
    List.Forall₂ InteractionEdit l1 l2 →
    ∀ (idx1 idx2 : List (String × List Interaction)),
    idxShape idx1 = idxShape idx2 →
    idxShape (l1.foldl (fun idx i =>
        match i.type, i.request with
        | .jsonrpc_request, some r => bucketAppend idx (match_key_for r) i
        | _, _ => idx) idx1)
      = idxShape (l2.foldl (fun idx i =>
        match i.type, i.request with
        | .jsonrpc_request, some r => bucketAppend idx (match_key_for r) i
        | _, _ => idx) idx2) := by
  intro l1 l2 h
  induction h with
  | nil => intro idx1 idx2 hs; exact hs
  | cons hi hrest ih =>
      intro idx1 idx2 hs
      simp only [List.foldl_cons]
      exact ih _ _ (step_shape _ _ hi idx1 idx2 hs)

theorem lookupBucket_shape : ∀ (idx1 idx2 : List (String × List Interaction)),
    idxShape idx1 = idxShape idx2 → ∀ key,
    (lookupBucket idx1 key).map List.length = (lookupBucket idx2 key).map List.length
  | [], [], _, key => rfl
  | [], (k, b) :: r, hs, key => by simp [idxShape] at hs
  | (k, b) :: r, [], hs, key => by simp [idxShape] at hs
  | (k1, b1) :: r1, (k2, b2) :: r2, hs, key => by
      simp only [idxShape, List.map_cons, List.cons.injEq, Prod.mk.injEq] at hs
      obtain ⟨⟨hk, hb⟩, hr⟩ := hs
      subst hk
      by_cases hkey : k1 = key
      · simp [lookupBucket, hkey, hb]
      · simp only [lookupBucket, if_neg hkey]
        exact lookupBucket_shape r1 r2 hr key

theorem setBucket_shape : ∀ (idx1 idx2 : List (String × List Interaction))
    (key : String) (b1 b2 : List Interaction),
    idxShape idx1 = idxShape idx2 → b1.length = b2.length →
    idxShape (setBucket idx1 key b1) = idxShape (setBucket idx2 key b2)
  | [], [], key, b1, b2, _, _ => rfl
  | [], (k, b) :: r, key, b1, b2, hs, _ => by simp [idxShape] at hs
  | (k, b) :: r, [], key, b1, b2, hs, _ => by simp [idxShape] at hs
  | (k1, c1) :: r1, (k2, c2) :: r2, key, b1, b2, hs, hl => by
      simp only [idxShape, List.map_cons, List.cons.injEq, Prod.mk.injEq] at hs
      obtain ⟨⟨hk, hb⟩, hr⟩ := hs
      subst hk
      by_cases hkey : k1 = key
      · simp [setBucket, hkey, idxShape, hl, hr]
      · simp only [setBucket, if_neg hkey]
        simp only [idxShape, List.map_cons, List.cons.injEq, Prod.mk.injEq,
          eq_self_iff_true, true_and]
        exact ⟨hb, setBucket_shape r1 r2 key b1 b2 hr hl⟩

theorem runHits_shape : ∀ (q1 q2 : List JFields), List.Forall₂ ReqEdit q1 q2 →
    ∀ (idx1 idx2 : List (String × List Interaction)) (t1 mc1 : Nat) (um1 : List JFields)
      (t2 mc2 : Nat) (um2 : List JFields),
    idxShape idx1 = idxShape idx2 →
    runHits { impl := .methodParams idx1, total := t1, matchedCount := mc1, unmatched := um1 } q1
      = runHits { impl := .methodParams idx2, total := t2, matchedCount := mc2, unmatched := um2 } q2 := by
  intro q1 q2 h
  induction h with
  | nil => intro idx1 idx2 t1 mc1 um1 t2 mc2 um2 hs; rfl
  | cons hb hrest ih =>
      intro idx1 idx2 t1 mc1 um1 t2 mc2 um2 hs
      rename_i b1 b2 q1t q2t
      have hkey : match_key_for b2 = match_key_for b1 := matchKey_reqEdit b1 b2 hb
      have hlen := lookupBucket_shape idx1 idx2 hs (match_key_for b1)
      cases hl1 : lookupBucket idx1 (match_key_for b1) with
      | none =>
          cases hl2 : lookupBucket idx2 (match_key_for b1) with
          | none =>
              have e1 : matchStep { impl := .methodParams idx1, total := t1,
                                    matchedCount := mc1, unmatched := um1 } b1
                  = (none, { impl := .methodParams idx1, total := t1,
                             matchedCount := mc1, unmatched := um1 ++ [b1] }) := by
                simp [matchStep, indexedMatch, hl1]
              have e2 : matchStep { impl := .methodParams idx2, total := t2,
                                    matchedCount := mc2, unmatched := um2 } b2
                  = (none, { impl := .methodParams idx2, total := t2,
                             matchedCount := mc2, unmatched := um2 ++ [b2] }) := by
                simp [matchStep, indexedMatch, hkey, hl2]
              simp only [runHits, e1, e2]
              rw [ih _ _ _ _ _ _ _ _ hs]
          | some bb => rw [hl1, hl2] at hlen; simp at hlen
      | some bb1 =>
          cases hl2 : lookupBucket idx2 (match_key_for b1) with
          | none => rw [hl1, hl2] at hlen; simp at hlen
          | some bb2 =>
              rw [hl1, hl2] at hlen
              simp only [Option.map_some', Option.some.injEq] at hlen
              cases bb1 with
              | nil =>
                  cases bb2 with
                  | nil =>
                      have e1 : matchStep { impl := .methodParams idx1, total := t1,
                                            matchedCount := mc1, unmatched := um1 } b1
                          = (none, { impl := .methodParams idx1, total := t1,
                                     matchedCount := mc1, unmatched := um1 ++ [b1] }) := by
                        simp [matchStep, indexedMatch, hl1]
                      have e2 : matchStep { impl := .methodParams idx2, total := t2,
                                            matchedCount := mc2, unmatched := um2 } b2
                          = (none, { impl := .methodParams idx2, total := t2,
                                     matchedCount := mc2, unmatched := um2 ++ [b2] }) := by
                        simp [matchStep, indexedMatch, hkey, hl2]
                      simp only [runHits, e1, e2]
                      rw [ih _ _ _ _ _ _ _ _ hs]
                  | cons x xs => simp at hlen
              | cons x1 xs1 =>
                  cases bb2 with
                  | nil => simp at hlen
                  | cons x2 xs2 =>
                      have e1 : matchStep { impl := .methodParams idx1, total := t1,
                                            matchedCount := mc1, unmatched := um1 } b1
                          = (some x1, { impl := .methodParams
                                          (setBucket idx1 (match_key_for b1) xs1),
                                        total := t1, matchedCount := mc1 + 1,
                                        unmatched := um1 }) := by
                        simp [matchStep, indexedMatch, hl1]
                      have e2 : matchStep { impl := .methodParams idx2, total := t2,
                                            matchedCount := mc2, unmatched := um2 } b2
                          = (some x2, { impl := .methodParams
                                          (setBucket idx2 (match_key_for b1) xs2),
                                        total := t2, matchedCount := mc2 + 1,
                                        unmatched := um2 }) := by
                        simp [matchStep, indexedMatch, hkey, hl2]
                      simp only [runHits, e1, e2, Option.isSome_some]
                      rw [ih _ _ _ _ _ _ _ _
                        (setBucket_shape idx1 idx2 (match_key_for b1) xs1 xs2 hs
                          (by simpa [List.length_cons] using hlen))]

/-- Claim C4: for the method_params matcher, replacing or removing the
top-level `_meta` key in any recorded interactions' params and in any
incoming request bodies' params (a two-run comparison) leaves the match
outcome — hit or miss — of every match call unchanged. -/
theorem method_params_meta_independence (l1 l2 : List Interaction)
    (q1 q2 : List JFields)
    (hl : List.Forall₂ InteractionEdit l1 l2)
    (hq : List.Forall₂ ReqEdit q1 q2) :
    runHits (initMethodParams l1) q1 = runHits (initMethodParams l2) q2 := by
  unfold initMethodParams
  exact runHits_shape q1 q2 hq _ _ _ _ _ _ _ _
    (buildIndex_shape l1 l2 hl [] [] rfl)

/-- Witness for C4: one recorded `tools/call` whose `_meta.progressToken`
is replaced (1 becomes 999) and one incoming body whose `_meta` is
removed; the hit/miss outcomes coincide. -/
theorem method_params_meta_independence_witness :
    runHits
        (initMethodParams
          [{ type := .jsonrpc_request,
             request := some (.cons "method" (.str "tools/call")
               (.cons "params" (.obj (.cons "name" (.str "t")
                 (.cons "_meta" (.obj (.cons "progressToken" (.num 1) .nil)) .nil))) .nil)),
             response := some (.cons "result" (.num 1) .nil) }])
        [.cons "method" (.str "tools/call")
          (.cons "params" (.obj (.cons "name" (.str "t")
            (.cons "_meta" (.obj (.cons "progressToken" (.num 1) .nil)) .nil))) .nil)]
      = runHits
        (initMethodParams
          [{ type := .jsonrpc_request,
             request := some (.cons "method" (.str "tools/call")
               (.cons "params" (.obj (.cons "name" (.str "t")
                 (.cons "_meta" (.obj (.cons "progressToken" (.num 999) .nil)) .nil))) .nil)),
             response := some (.cons "result" (.num 1) .nil) }])
        [.cons "method" (.str "tools/call")
          (.cons "params" (.obj (.cons "name" (.str "t") .nil)) .nil)] := by
  apply method_params_meta_independence
  · refine List.Forall₂.cons (Or.inr ?_) List.Forall₂.nil
    refine ⟨.cons "method" (.str "tools/call")
      (.cons "params" (.obj (.cons "name" (.str "t")
        (.cons "_meta" (.obj (.cons "progressToken" (.num 1) .nil)) .nil))) .nil),
      .cons "method" (.str "tools/call")
      (.cons "params" (.obj (.cons "name" (.str "t")
        (.cons "_meta" (.obj (.cons "progressToken" (.num 999) .nil)) .nil))) .nil),
      rfl, ?_, by rfl⟩
    refine Or.inr ⟨.obj (.cons "name" (.str "t")
        (.cons "_meta" (.obj (.cons "progressToken" (.num 1) .nil)) .nil)),
      .obj (.cons "name" (.str "t")
        (.cons "_meta" (.obj (.cons "progressToken" (.num 999) .nil)) .nil)),
      rfl, ?_, by rfl⟩
    exact Or.inr (Or.inl ⟨.cons "name" (.str "t")
        (.cons "_meta" (.obj (.cons "progressToken" (.num 1) .nil)) .nil),
      .obj (.cons "progressToken" (.num 999) .nil), rfl, by rfl⟩)
  · refine List.Forall₂.cons (Or.inr ?_) List.Forall₂.nil
    refine ⟨.obj (.cons "name" (.str "t")
        (.cons "_meta" (.obj (.cons "progressToken" (.num 1) .nil)) .nil)),
      .obj (.cons "name" (.str "t") .nil), rfl, ?_, by rfl⟩
    exact Or.inr (Or.inr ⟨.cons "name" (.str "t")
        (.cons "_meta" (.obj (.cons "progressToken" (.num 1) .nil)) .nil), rfl, by rfl⟩)

/-! ### Claim C9 — `ignore_paths` strips at object-key positions only

A position in a JSON tree is addressed by a list of path elements; its
rendered dot-path is exactly the `_current_path` string the code
accumulates. -/

inductive PathElem where
  | key (k : String) : PathElem
  | idx (i : Nat) : PathElem

/-- The `_current_path` string reached by following a path from `cur`. -/
def renderFrom (cur : String) : List PathElem → String
  | [] => cur
  | .key k :: ps => renderFrom (cur ++ "." ++ k) ps
  | .idx i :: ps => renderFrom (cur ++ "[" ++ toString i ++ "]") ps

/-- The value stored at a path. -/
def getPath : Json → List PathElem → Option Json
  | j, [] => some j
  | .obj fs, .key k :: ps => (lookupField fs k).bind (fun v => getPath v ps)
  | .arr xs, .idx i :: ps => (JList.get? xs i).bind (fun v => getPath v ps)
  | _, _ => none

theorem lookup_stripF (ignF ignP : List String) : ∀ (fs : JFields) (cur k : String),
    lookupField (stripVolatileF ignF ignP fs cur) k
      = if k ∈ VOLATILE_KEYS ∨ k ∈ ignF ∨ (cur ++ "." ++ k) ∈ ignP then none
        else (lookupField fs k).map
          (fun v => stripVolatileJ ignF ignP v (cur ++ "." ++ k))
  | .nil, cur, k => by
      by_cases h : k ∈ VOLATILE_KEYS ∨ k ∈ ignF ∨ (cur ++ "." ++ k) ∈ ignP <;>
        simp [stripVolatileF, lookupField, h]
  | .cons k2 v tl, cur, k => by
      by_cases hk : k2 = k
      · subst hk
        by_cases h1 : k2 ∈ VOLATILE_KEYS ∨ k2 ∈ ignF
        · by_cases h2 : (cur ++ "." ++ k2) ∈ ignP <;>
            simp [stripVolatileF, h1, h2, lookup_stripF ignF ignP tl cur k2, lookupField]
        · by_cases h2 : (cur ++ "." ++ k2) ∈ ignP
          · simp [stripVolatileF, h1, h2, lookup_stripF ignF ignP tl cur k2, lookupField,
              not_or.mp h1]
          · have hcond : ¬ (k2 ∈ VOLATILE_KEYS ∨ k2 ∈ ignF ∨ (cur ++ "." ++ k2) ∈ ignP) := by
              push_neg
              exact ⟨(not_or.mp h1).1, (not_or.mp h1).2, h2⟩
            simp [stripVolatileF, h1, h2, lookupField, hcond]
      · by_cases h1 : k2 ∈ VOLATILE_KEYS ∨ k2 ∈ ignF
        · simp [stripVolatileF, h1, lookup_stripF ignF ignP tl cur k, lookupField, hk]
        · by_cases h2 : (cur ++ "." ++ k2) ∈ ignP <;>
            simp [stripVolatileF, h1, h2, lookup_stripF ignF ignP tl cur k, lookupField, hk]

theorem get_stripL (ignF ignP : List String) : ∀ (xs : JList) (cur : String) (j i : Nat),
    JList.get? (stripVolatileL ignF ignP xs cur j) i
      = (JList.get? xs i).map
          (fun v => stripVolatileJ ignF ignP v (cur ++ "[" ++ toString (j + i) ++ "]"))
  | .nil, cur, j, i => by simp [stripVolatileL, JList.get?]
  | .cons x xs, cur, j, 0 => by simp [stripVolatileL, JList.get?]
  | .cons x xs, cur, j, i + 1 => by
      simp only [stripVolatileL, JList.get?]
      rw [get_stripL ignF ignP xs cur (j + 1) i]
      have : j + 1 + i = j + (i + 1) := by omega
      rw [this]

theorem length_stripL (ignF ignP : List String) : ∀ (xs : JList) (cur : String) (j : Nat),
    JList.length (stripVolatileL ignF ignP xs cur j) = xs.length
  | .nil, _, _ => rfl
  | .cons x xs, cur, j => by
      simp [stripVolatileL, JList.length, length_stripL ignF ignP xs cur (j + 1)]

theorem renderFrom_append : ∀ (ps qs : List PathElem) (cur : String),
    renderFrom cur (ps ++ qs) = renderFrom (renderFrom cur ps) qs
  | [], qs, cur => rfl
  | .key k :: ps, qs, cur => by
      simp [renderFrom, renderFrom_append ps qs]
  | .idx i :: ps, qs, cur => by
      simp [renderFrom, renderFrom_append ps qs]

theorem getPath_append : ∀ (ps qs : List PathElem) (x : Json),
    getPath x (ps ++ qs) = (getPath x ps).bind (fun y => getPath y qs)
  | [], qs, x => by cases x <;> rfl
  | .key k :: ps, qs, x => by
      cases x with
      | obj fs =>
          cases h : lookupField fs k with
          | none => simp [getPath, h]
          | some v => simp [getPath, h, getPath_append ps qs v]
      | null => simp [getPath]
      | bool b => simp [getPath]
      | num n => simp [getPath]
      | str s => simp [getPath]
      | arr xs => simp [getPath]
  | .idx i :: ps, qs, x => by
      cases x with
      | arr xs =>
          cases h : JList.get? xs i with
          | none => simp [getPath, h]
          | some v => simp [getPath, h, getPath_append ps qs v]
      | null => simp [getPath]
      | bool b => simp [getPath]
      | num n => simp [getPath]
      | str s => simp [getPath]
      | obj fs => simp [getPath]

theorem getPath_strip (ignF ignP : List String) : ∀ (ps : List PathElem) (x : Json) (cur : String),
    getPath (stripVolatileJ ignF ignP x cur) ps = none ∨
    ∃ y, getPath x ps = some y ∧
      getPath (stripVolatileJ ignF ignP x cur) ps
        = some (stripVolatileJ ignF ignP y (renderFrom cur ps))
  | [], x, cur => by cases x <;> exact Or.inr ⟨_, rfl, rfl⟩
  | .key k :: ps, x, cur => by
      cases x with
      | obj fs =>
          simp only [stripVolatileJ, getPath]
          rw [lookup_stripF ignF ignP fs cur k]
          by_cases hc : k ∈ VOLATILE_KEYS ∨ k ∈ ignF ∨ (cur ++ "." ++ k) ∈ ignP
          · left
            simp [hc]
          · simp only [if_neg hc]
            cases h : lookupField fs k with
            | none => left; simp
            | some v =>
                simp only [Option.map_some', Option.some_bind]
                rcases getPath_strip ignF ignP ps v (cur ++ "." ++ k) with hn | ⟨y, hy1, hy2⟩
                · left; exact hn
                · right
                  exact ⟨y, by simp [getPath, h, hy1], by simp [hy2, renderFrom]⟩
      | null => left; rfl
      | bool b => left; rfl
      | num n => left; rfl
      | str s => left; rfl
      | arr xs => left; rfl
  | .idx i :: ps, x, cur => by
      cases x with
      | arr xs =>
          simp only [stripVolatileJ, getPath]
          rw [get_stripL ignF ignP xs cur 0 i]
          cases h : JList.get? xs i with
          | none => left; simp
          | some v =>
              simp only [Option.map_some', Option.some_bind, Nat.zero_add]
              rcases getPath_strip ignF ignP ps v (cur ++ "[" ++ toString i ++ "]") with
                hn | ⟨y, hy1, hy2⟩
              · left; exact hn
              · right
                exact ⟨y, by simp [getPath, h, hy1], by simp [hy2, renderFrom]⟩
      | null => left; rfl
      | bool b => left; rfl
      | num n => left; rfl
      | str s => left; rfl
      | obj fs => left; rfl

theorem strip_removes (ignF ignP : List String) : ∀ (ps : List PathElem) (k : String)
    (x : Json) (cur : String),
    renderFrom cur (ps ++ [.key k]) ∈ ignP →
    getPath (stripVolatileJ ignF ignP x cur) (ps ++ [.key k]) = none
  | [], k, x, cur => by
      intro hp
      simp only [List.nil_append, renderFrom] at hp
      cases x with
      | obj fs =>
          simp only [stripVolatileJ, List.nil_append, getPath]
          rw [lookup_stripF ignF ignP fs cur k]
          have hc : k ∈ VOLATILE_KEYS ∨ k ∈ ignF ∨ (cur ++ "." ++ k) ∈ ignP :=
            Or.inr (Or.inr hp)
          simp [hc]
      | null => rfl
      | bool b => rfl
      | num n => rfl
      | str s => rfl
      | arr xs => rfl
  | .key k0 :: ps, k, x, cur => by
      intro hp
      cases x with
      | obj fs =>
          simp only [stripVolatileJ, List.cons_append, getPath]
          rw [lookup_stripF ignF ignP fs cur k0]
          by_cases hc : k0 ∈ VOLATILE_KEYS ∨ k0 ∈ ignF ∨ (cur ++ "." ++ k0) ∈ ignP
          · simp [hc]
          · simp only [if_neg hc]
            cases h : lookupField fs k0 with
            | none => simp
            | some v =>
                simp only [Option.map_some', Option.some_bind]
                exact strip_removes ignF ignP ps k v (cur ++ "." ++ k0)
                  (by simpa [renderFrom] using hp)
      | null => rfl
      | bool b => rfl
      | num n => rfl
      | str s => rfl
      | arr xs => rfl
  | .idx i :: ps, k, x, cur => by
      intro hp
      cases x with
      | arr xs =>
          simp only [stripVolatileJ, List.cons_append, getPath]
          rw [get_stripL ignF ignP xs cur 0 i]
          cases h : JList.get? xs i with
          | none => simp
          | some v =>
              simp only [Option.map_some', Option.some_bind, Nat.zero_add]
              exact strip_removes ignF ignP ps k v (cur ++ "[" ++ toString i ++ "]")
                (by simpa [renderFrom] using hp)
      | null => rfl
      | bool b => rfl
      | num n => rfl
      | str s => rfl
      | obj fs => rfl

/-- Claim C9 (amended): the verifier's `ignore_paths` normalization
strips values at object-key positions only — every object entry whose
rendered dot-path is in `ignore_paths` is removed; array elements are
never removed (any array surviving in the output keeps its input
length); and an entry whose key is neither volatile nor in
`ignore_fields`, whose rendered path is not in `ignore_paths`, and whose
parent position survives, is kept with its value recursively
normalized.  In particular a path that ends in an `[i]` component does
not remove that array element. -/
theorem strip_paths_object_keys_only (ignF ignP : List String) (x : Json) :
    (∀ (ps : List PathElem) (k : String),
      renderFrom "$" (ps ++ [.key k]) ∈ ignP →
      getPath (strip_volatile ignF ignP x) (ps ++ [.key k]) = none) ∧
    (∀ (ps : List PathElem) (ys : JList),
      getPath (strip_volatile ignF ignP x) ps = some (.arr ys) →
      ∃ xs, getPath x ps = some (.arr xs) ∧ ys.length = xs.length) ∧
    (∀ (ps : List PathElem) (k : String) (v p2 : Json),
      getPath x (ps ++ [.key k]) = some v →
      getPath (strip_volatile ignF ignP x) ps = some p2 →
      k ∉ VOLATILE_KEYS → k ∉ ignF →
      renderFrom "$" (ps ++ [.key k]) ∉ ignP →
      getPath (strip_volatile ignF ignP x) (ps ++ [.key k])
        = some (stripVolatileJ ignF ignP v (renderFrom "$" (ps ++ [.key k])))) := by
  refine ⟨?_, ?_, ?_⟩
  · intro ps k hp
    exact strip_removes ignF ignP ps k x "$" hp
  · intro ps ys hys
    rcases getPath_strip ignF ignP ps x "$" with hn | ⟨y, hy1, hy2⟩
    · rw [strip_volatile] at hys
      rw [hys] at hn
      exact absurd hn (by simp)
    · rw [strip_volatile] at hys
      rw [hys] at hy2
      cases y with
      | arr xs =>
          refine ⟨xs, hy1, ?_⟩
          have : stripVolatileJ ignF ignP (.arr xs) (renderFrom "$" ps)
              = .arr (stripVolatileL ignF ignP xs (renderFrom "$" ps) 0) := rfl
          rw [this] at hy2
          have harr := Option.some.inj hy2
          have : ys = stripVolatileL ignF ignP xs (renderFrom "$" ps) 0 := by
            cases harr
            rfl
          rw [this, length_stripL]
      | null => exact absurd (Option.some.inj hy2) (by simp [stripVolatileJ])
      | bool b => exact absurd (Option.some.inj hy2) (by simp [stripVolatileJ])
      | num n => exact absurd (Option.some.inj hy2) (by simp [stripVolatileJ])
      | str s => exact absurd (Option.some.inj hy2) (by simp [stripVolatileJ])
      | obj fs => exact absurd (Option.some.inj hy2) (by simp [stripVolatileJ])
  · intro ps k v p2 hxv hp2 hk1 hk2 hk3
    rcases getPath_strip ignF ignP ps x "$" with hn | ⟨y, hy1, hy2⟩
    · rw [strip_volatile] at hp2
      rw [hp2] at hn
      exact absurd hn (by simp)
    · have hyk : getPath y [PathElem.key k] = some v := by
        rw [getPath_append ps [PathElem.key k] x, hy1] at hxv
        simpa using hxv
      cases y with
      | obj fs =>
          have hlk : lookupField fs k = some v := by
            cases hlk0 : lookupField fs k with
            | none => simp [getPath, hlk0] at hyk
            | some v0 =>
                simp only [getPath, hlk0, Option.some_bind] at hyk
                exact hyk
          rw [strip_volatile, getPath_append ps [PathElem.key k], hy2]
          have hestep : getPath (stripVolatileJ ignF ignP (.obj fs) (renderFrom "$" ps))
              [PathElem.key k]
              = some (stripVolatileJ ignF ignP v (renderFrom "$" ps ++ "." ++ k)) := by
            simp only [stripVolatileJ, getPath]
            rw [lookup_stripF ignF ignP fs (renderFrom "$" ps) k]
            have hc : ¬ (k ∈ VOLATILE_KEYS ∨ k ∈ ignF
                ∨ (renderFrom "$" ps ++ "." ++ k) ∈ ignP) := by
              push_neg
              refine ⟨hk1, hk2, ?_⟩
              have : renderFrom "$" (ps ++ [PathElem.key k])
                  = renderFrom "$" ps ++ "." ++ k := by
                rw [renderFrom_append]
                rfl
              rw [this] at hk3
              exact hk3
            simp [hc, hlk]
          simp only [Option.some_bind, hestep]
          have : renderFrom "$" (ps ++ [PathElem.key k])
              = renderFrom "$" ps ++ "." ++ k := by
            rw [renderFrom_append]
            rfl
          rw [this]
      | null => simp [getPath] at hyk
      | bool b => simp [getPath] at hyk
      | num n => simp [getPath] at hyk
      | str s => simp [getPath] at hyk
      | arr xs => simp [getPath] at hyk

/-- Witness for C9 (amended), at concrete inputs: with
`ignore_paths = ["$.a.b", "$.c[0].d"]` on
`\x7b"a": \x7b"b": 1, "e": 2\x7d, "c": [\x7b"d": 3, "f": 4\x7d]\x7d`,
the entry at `$.a.b` is removed, the array under `c` keeps its length,
and the untargeted entry at `$.a.e` survives. -/
theorem strip_paths_object_keys_only_witness :
    getPath (strip_volatile [] ["$.a.b", "$.c[0].d"]
        (.obj (.cons "a" (.obj (.cons "b" (.num 1) (.cons "e" (.num 2) .nil)))
          (.cons "c" (.arr (.cons (.obj (.cons "d" (.num 3) (.cons "f" (.num 4) .nil))) .nil)) .nil))))
      [.key "a", .key "b"] = none ∧
    (∃ xs, getPath
        (.obj (.cons "a" (.obj (.cons "b" (.num 1) (.cons "e" (.num 2) .nil)))
          (.cons "c" (.arr (.cons (.obj (.cons "d" (.num 3) (.cons "f" (.num 4) .nil))) .nil)) .nil)))
        [.key "c"] = some (.arr xs) ∧
      JList.length (.cons (.obj (.cons "f" (.num 4) .nil)) .nil) = xs.length) ∧
    getPath (strip_volatile [] ["$.a.b", "$.c[0].d"]
        (.obj (.cons "a" (.obj (.cons "b" (.num 1) (.cons "e" (.num 2) .nil)))
          (.cons "c" (.arr (.cons (.obj (.cons "d" (.num 3) (.cons "f" (.num 4) .nil))) .nil)) .nil))))
      [.key "a", .key "e"]
      = some (stripVolatileJ [] ["$.a.b", "$.c[0].d"] (.num 2)
          (renderFrom "$" [PathElem.key "a", PathElem.key "e"])) := by
  refine ⟨?_, ?_, ?_⟩
  · exact (strip_paths_object_keys_only [] ["$.a.b", "$.c[0].d"] _).1
      [.key "a"] "b" (by decide)
  · exact (strip_paths_object_keys_only [] ["$.a.b", "$.c[0].d"] _).2.1
      [.key "c"] (.cons (.obj (.cons "f" (.num 4) .nil)) .nil) (by rfl)
  · exact (strip_paths_object_keys_only [] ["$.a.b", "$.c[0].d"] _).2.2
      [.key "a"] "e" (.num 2) (.obj (.cons "e" (.num 2) .nil))
      (by rfl) (by rfl) (by decide) (by decide) (by decide)

/-- Counterexample for C9 as stated: with `ignore_paths = ["$.a[0]"]` on
`\x7b"a": [1, 2]\x7d`, the path addresses the array element at
`$.a[0]` (value 1), yet normalization returns the value unchanged — the
value at that exact position is not removed. -/
theorem strip_paths_cex :
    strip_volatile [] ["$.a[0]"]
        (.obj (.cons "a" (.arr (.cons (.num 1) (.cons (.num 2) .nil))) .nil))
      = .obj (.cons "a" (.arr (.cons (.num 1) (.cons (.num 2) .nil))) .nil) ∧
    renderFrom "$" [.key "a", .idx 0] = "$.a[0]" ∧
    getPath (strip_volatile [] ["$.a[0]"]
        (.obj (.cons "a" (.arr (.cons (.num 1) (.cons (.num 2) .nil))) .nil)))
      [.key "a", .idx 0] = some (.num 1) := by
  exact ⟨by rfl, by rfl, by rfl⟩
